import Mathlib

/-!
# MeshConv: binary mesh encoder and decoder

A shallow embedding of `src/MeshConv.cpp` (the encoder, `ConvertMesh` and its
`Write*` helpers) and `src/MeshReader.cpp` (the decoder, `mesh_read`).

Conventions of the embedding.

* A byte (`char`, `uint8_t`) is a natural number below 256; an `ofstream` is the
  list of bytes written so far, an `ifstream` the list of bytes not yet read.
* A `uint16_t` is a natural number below 65536, a `float` is its 32-bit pattern
  (a natural number below 2^32).  Conversions to a narrower unsigned type are
  written `% 2^w` where the source performs them implicitly.
* The source reinterprets values as raw memory (`union`, `(char*)` casts), so the
  byte order of the host is an explicit parameter `Endian`.
* `assert` failing and reading through a null or too short array are faults:
  the encoder returns `Except Fault`.
-/

namespace MeshConv

/-! ## Memory representation -/

/-- Byte order of the machine the program runs on. -/
inductive Endian where
  | little
  | big
  deriving DecidableEq, Repr

/-- Ways in which the encoder can stop without producing a stream. -/
inductive Fault where
  | assertFailed
  | nullDeref
  | outOfBounds
  deriving DecidableEq, Repr

/-- The two memory cells `b[0], b[1]` of a `uint16_t` holding `i`. -/
def u16_mem : Endian → Nat → Nat × Nat
  | .little, i => (i % 256, i / 256 % 256)
  | .big, i => (i / 256 % 256, i % 256)

/-- The `uint16_t` whose memory cells are `b0, b1`. -/
def u16_val : Endian → Nat × Nat → Nat
  | .little, (b0, b1) => b0 + 256 * b1
  | .big, (b0, b1) => 256 * b0 + b1

/-- The four memory cells `b[0..3]` of a `float` with bit pattern `p`. -/
def f32_mem : Endian → Nat → Nat × Nat × Nat × Nat
  | .little, p => (p % 256, p / 256 % 256, p / 65536 % 256, p / 16777216 % 256)
  | .big, p => (p / 16777216 % 256, p / 65536 % 256, p / 256 % 256, p % 256)

/-- The bit pattern of the `float` whose memory cells are `b0, b1, b2, b3`. -/
def f32_val : Endian → Nat × Nat × Nat × Nat → Nat
  | .little, (b0, b1, b2, b3) => b0 + 256 * b1 + 65536 * b2 + 16777216 * b3
  | .big, (b0, b1, b2, b3) => 16777216 * b0 + 65536 * b1 + 256 * b2 + b3

/-- Source `swap_f32`: copy the cells of `u1` into `u2` in reverse order. -/
def swap_f32 (h : Endian) (f : Nat) : Nat :=
  match f32_mem h f with
  | (b0, b1, b2, b3) => f32_val h (b3, b2, b1, b0)

/-- Source `swap_u16`; the parameter is a `uint16_t`, so a wider argument is
reduced modulo 65536 by `u16_mem` as the call converts it. -/
def swap_u16 (h : Endian) (i : Nat) : Nat :=
  match u16_mem h i with
  | (b0, b1) => u16_val h (b1, b0)

/-- The bytes `write((char*)p, 2*n)` emits for an array of `uint16_t`. -/
def u16_raw (h : Endian) : List Nat → List Nat
  | [] => []
  | x :: xs => (u16_mem h x).1 :: (u16_mem h x).2 :: u16_raw h xs

/-- The bytes `write((char*)p, 4*n)` emits for an array of `float`. -/
def f32_raw (h : Endian) : List Nat → List Nat
  | [] => []
  | x :: xs =>
    match f32_mem h x with
    | (b0, b1, b2, b3) => b0 :: b1 :: b2 :: b3 :: f32_raw h xs

/-- The array of `uint16_t` a host sees in a block of bytes (pairs of cells). -/
def u16_view (h : Endian) : List Nat → List Nat
  | b0 :: b1 :: rest => u16_val h (b0, b1) :: u16_view h rest
  | _ => []

/-! ## Scene model (the Assimp structures the encoder reads) -/

/-- Assimp `aiVector3D`: three floats, kept as bit patterns. -/
structure aiVector3D where
  x : Nat
  y : Nat
  z : Nat
  deriving DecidableEq, Repr

/-- Assimp `aiFace`: `mNumIndices` is the length of `mIndices`. -/
structure aiFace where
  mIndices : List Nat
  deriving DecidableEq, Repr

/-- Assimp `aiMesh`, restricted to the members the encoder reads.
`mNumVertices` and `mNumFaces` are the lengths of `mVertices` and `mFaces`;
`mNormals` and `mTextureCoords[0]` are null (`none`) or arrays of `mNumVertices`
elements. -/
structure aiMesh where
  mVertices : List aiVector3D
  mNormals : Option (List aiVector3D)
  mTextureCoords0 : Option (List aiVector3D)
  mFaces : List aiFace
  mMaterialIndex : Nat
  normals_size : ∀ ns, mNormals = some ns → ns.length = mVertices.length
  texcoords_size : ∀ ts, mTextureCoords0 = some ts → ts.length = mVertices.length

/-- Assimp `aiMesh::mNumVertices`. -/
def aiMesh.mNumVertices (m : aiMesh) : Nat := m.mVertices.length

/-- Assimp `aiMesh::mNumFaces`. -/
def aiMesh.mNumFaces (m : aiMesh) : Nat := m.mFaces.length

/-- Assimp `aiMesh::HasNormals`: the array is present and the mesh has vertices. -/
def aiMesh.HasNormals (m : aiMesh) : Bool :=
  m.mNormals.isSome && decide (0 < m.mNumVertices)

/-- Assimp `aiMesh::HasTextureCoords(0)`. -/
def aiMesh.HasTextureCoords0 (m : aiMesh) : Bool :=
  m.mTextureCoords0.isSome && decide (0 < m.mNumVertices)

/-- Assimp `aiScene`: `mNumMeshes` is the length of `mMeshes`. -/
structure aiScene where
  mMeshes : List aiMesh

/-- Total vertex count of a scene (the `V` of the format). -/
def aiScene.totalVertices (s : aiScene) : Nat :=
  (s.mMeshes.map aiMesh.mNumVertices).sum

/-- Total triangle (face) count of a scene (the `T` of the format). -/
def aiScene.totalFaces (s : aiScene) : Nat :=
  (s.mMeshes.map aiMesh.mNumFaces).sum

/-- Number of vertices of the submeshes that have texture coordinates. -/
def aiScene.totalTexVertices (s : aiScene) : Nat :=
  ((s.mMeshes.filter aiMesh.HasTextureCoords0).map aiMesh.mNumVertices).sum

/-! ## Encoder (`src/MeshConv.cpp`) -/

/-- Source `CopyData_2f`: the two floats stored at `dest[idx], dest[idx+1]`. -/
def CopyData_2f (h : Endian) (src : aiVector3D) : List Nat :=
  [swap_f32 h src.x, swap_f32 h src.y]

/-- Source `CopyData_3f`: the three floats stored at `dest[idx .. idx+2]`. -/
def CopyData_3f (h : Endian) (src : aiVector3D) : List Nat :=
  [swap_f32 h src.x, swap_f32 h src.y, swap_f32 h src.z]

/-- The loop of `WriteData`: `n` calls of `copyFunc` on `data_src[0 .. n-1]`,
each appending its floats to `data_out`. -/
def WriteData_loop (copyFunc : aiVector3D → List Nat) :
    Nat → List aiVector3D → Except Fault (List Nat)
  | 0, _ => .ok []
  | _ + 1, [] => .error .outOfBounds
  | n + 1, v :: vs =>
    match WriteData_loop copyFunc n vs with
    | .ok out => .ok (copyFunc v ++ out)
    | .error e => .error e

/-- Source `WriteData`: the bytes written for `n` elements of `data_src`, the
first `n_elements` floats of `data_out`.  (Both copy functions of the source
store `element_size` floats per element, so the loop fills `data_out` exactly.) -/
def WriteData (h : Endian) (data_src : Option (List aiVector3D)) (n : Nat)
    (element_size : Nat) (copyFunc : aiVector3D → List Nat) : Except Fault (List Nat) :=
  let n_elements := n * element_size
  match data_src with
  | none => if n = 0 then .ok [] else .error .nullDeref
  | some vs =>
    match WriteData_loop copyFunc n vs with
    | .ok data_out => .ok (f32_raw h (data_out.take n_elements))
    | .error e => .error e

/-- The `uint16_t` accumulation loops of `WriteHeader`: `acc += count`. -/
def sum_u16 : Nat → List Nat → Nat
  | acc, [] => acc
  | acc, c :: cs => sum_u16 ((acc + c) % 65536) cs

/-- The four `uint16_t` of `header[]` after the byte swaps in `WriteHeader`. -/
def header_fields (h : Endian) (pScene : aiScene) (len_material : Nat) : List Nat :=
  let n_vertices := sum_u16 0 (pScene.mMeshes.map aiMesh.mNumVertices)
  let n_faces := sum_u16 0 (pScene.mMeshes.map aiMesh.mNumFaces)
  let n_subMeshes := pScene.mMeshes.length % 65536
  [swap_u16 h n_vertices, swap_u16 h n_faces, swap_u16 h n_subMeshes,
   swap_u16 h (len_material % 65536)]

/-- Source `WriteHeader`: the 8 bytes written. -/
def WriteHeader (h : Endian) (pScene : aiScene) (len_material : Nat) : List Nat :=
  u16_raw h (header_fields h pScene len_material)

/-- Source `WriteMaterialName`: the characters of the name and the terminator
of `c_str()`. -/
def WriteMaterialName (materialName : List Nat) : List Nat :=
  materialName ++ [0]

/-- Run a per-submesh writer over the submeshes in order, appending outputs. -/
def forMeshes (f : aiMesh → Except Fault (List Nat)) :
    List aiMesh → Except Fault (List Nat)
  | [] => .ok []
  | m :: ms =>
    match f m with
    | .error e => .error e
    | .ok out =>
      match forMeshes f ms with
      | .error e => .error e
      | .ok rest => .ok (out ++ rest)

/-- Source `WritePositions`. -/
def WritePositions (h : Endian) (pScene : aiScene) : Except Fault (List Nat) :=
  forMeshes (fun mesh => WriteData h (some mesh.mVertices) mesh.mNumVertices 3 (CopyData_3f h))
    pScene.mMeshes

/-- Source `WriteNormals`. -/
def WriteNormals (h : Endian) (pScene : aiScene) : Except Fault (List Nat) :=
  forMeshes (fun mesh => WriteData h mesh.mNormals mesh.mNumVertices 3 (CopyData_3f h))
    pScene.mMeshes

/-- Source `WriteTexCoord`. -/
def WriteTexCoord (h : Endian) (pScene : aiScene) : Except Fault (List Nat) :=
  forMeshes (fun mesh =>
    if mesh.HasTextureCoords0 then
      WriteData h mesh.mTextureCoords0 mesh.mNumVertices 2 (CopyData_2f h)
    else .ok [])
    pScene.mMeshes

/-- The face loop of `WriteIndices` for one submesh: the `uint16_t` stored in
`indices[]`; the `assert` on `mNumIndices` guards the three reads. -/
def face_indices (h : Endian) (acc : Nat) : List aiFace → Except Fault (List Nat)
  | [] => .ok []
  | face :: fs =>
    match face.mIndices with
    | [i0, i1, i2] =>
      match face_indices h acc fs with
      | .ok rest => .ok (swap_u16 h (acc + i0) :: swap_u16 h (acc + i1) ::
          swap_u16 h (acc + i2) :: rest)
      | .error e => .error e
    | _ => .error .assertFailed

/-- The submesh loop of `WriteIndices`, `acc` being the running vertex count. -/
def WriteIndices_loop (h : Endian) : Nat → List aiMesh → Except Fault (List Nat)
  | _, [] => .ok []
  | acc, mesh :: ms =>
    match face_indices h acc mesh.mFaces with
    | .error e => .error e
    | .ok indices =>
      match WriteIndices_loop h (acc + mesh.mNumVertices) ms with
      | .error e => .error e
      | .ok rest => .ok (u16_raw h indices ++ rest)

/-- Source `WriteIndices`. -/
def WriteIndices (h : Endian) (pScene : aiScene) : Except Fault (List Nat) :=
  WriteIndices_loop h 0 pScene.mMeshes

/-- The loop of `WriteSubMeshes`: the `uint16_t` stored in `subMeshes[]`, with
`start` the running `uint16_t` triangle count. -/
def subMesh_fields (h : Endian) : Nat → List aiMesh → List Nat
  | _, [] => []
  | start, mesh :: ms =>
    let n_tris := mesh.mNumFaces % 65536
    swap_u16 h start :: swap_u16 h n_tris ::
      subMesh_fields h ((start + n_tris) % 65536) ms

/-- Source `WriteSubMeshes`. -/
def WriteSubMeshes (h : Endian) (pScene : aiScene) : List Nat :=
  u16_raw h (subMesh_fields h 0 pScene.mMeshes)

/-- The byte `WriteSubMeshMaterials` stores for one submesh:
`uint8_t materialIdx = mesh->mMaterialIndex - 1` on a 32-bit `unsigned`. -/
def materialIdx (mesh : aiMesh) : Nat :=
  (mesh.mMaterialIndex + 4294967295) % 4294967296 % 256

/-- Source `WriteSubMeshMaterials`. -/
def WriteSubMeshMaterials (pScene : aiScene) : List Nat :=
  pScene.mMeshes.map materialIdx

/-- The characters of the suffix `.mat`. -/
def dotMat : List Nat := [46, 109, 97, 116]

/-- Source `ConvertMesh`: the content of the output file, given the scene the
importer returned (`none` for a null `pScene`). -/
def ConvertMesh (h : Endian) (pScene : Option aiScene) (filename : List Nat) :
    Except Fault (List Nat) :=
  let materialName := filename ++ dotMat
  match pScene with
  | none => .ok []
  | some scene => do
    let header := WriteHeader h scene (materialName.length + 1)
    let name := WriteMaterialName materialName
    let positions ← WritePositions h scene
    let normals ← WriteNormals h scene
    let texcoord ← WriteTexCoord h scene
    let indices ← WriteIndices h scene
    let subMeshes := WriteSubMeshes h scene
    let materials := WriteSubMeshMaterials scene
    pure (header ++ name ++ positions ++ normals ++ texcoord ++ indices ++
      subMeshes ++ materials)

/-! ## Decoder (`src/MeshReader.cpp`, `src/Mesh.h`) -/

/-- Source `Vec3` of `Mesh.h`; floats are bit patterns. -/
structure Vec3 where
  x : Nat
  y : Nat
  z : Nat
  deriving DecidableEq, Repr

/-- Source `Vec2` of `Mesh.h`. -/
structure Vec2 where
  x : Nat
  y : Nat
  deriving DecidableEq, Repr

/-- Source `SubMesh` of `Mesh.h`. -/
structure SubMesh where
  start : Nat
  size : Nat
  deriving DecidableEq, Repr

/-- Source `Mesh` of `Mesh.h`; an array pointer is the list it points to, the
null pointer of the constructor the empty list. -/
structure Mesh where
  n_vertices : Nat
  n_tris : Nat
  n_texcoord : Nat
  n_normals : Nat
  n_subMeshes : Nat
  vertices : List Vec3
  indices : List Nat
  texcoord : List Vec2
  normals : List Vec3
  subMeshes : List SubMesh
  deriving DecidableEq, Repr

/-- The call `inFile.read(buf, n)` on a buffer that was not initialised: the
buffer afterwards and the bytes left in the stream.  When fewer than `n` bytes
are left they are all extracted, the other cells keep what the buffer held
before (`junk`, by offset), and nothing is left to read. -/
def stream_read (junk : Nat → Nat) (inFile : List Nat) (n : Nat) : List Nat × List Nat :=
  if n ≤ inFile.length then (inFile.take n, inFile.drop n)
  else (inFile ++ (List.range (n - inFile.length)).map (fun k => junk (inFile.length + k)), [])

/-- The array of `float` a host sees in a block of bytes (groups of 4 cells). -/
def f32_view (h : Endian) : List Nat → List Nat
  | b0 :: b1 :: b2 :: b3 :: rest => f32_val h (b0, b1, b2, b3) :: f32_view h rest
  | _ => []

/-- The loop of `readVec3f`: `out[k].set(data_src[i], data_src[i+1], data_src[i+2])`. -/
def vec3_loop : List Nat → List Vec3
  | x :: y :: z :: rest => ⟨x, y, z⟩ :: vec3_loop rest
  | _ => []

/-- The loop of `readVec2f`: `out[k].set(data_src[i], data_src[i+1])`. -/
def vec2_loop : List Nat → List Vec2
  | x :: y :: rest => ⟨x, y⟩ :: vec2_loop rest
  | _ => []

/-- The loop of `mesh_read` over `subMeshes_src`. -/
def subMesh_loop : List Nat → List SubMesh
  | start :: n :: rest => ⟨start, n⟩ :: subMesh_loop rest
  | _ => []

/-- Source `readVec3f`: the filled `out` array and the rest of the stream. -/
def readVec3f (h : Endian) (junk : Nat → Nat) (inFile : List Nat) (n_elements : Nat) :
    List Vec3 × List Nat :=
  let r := stream_read junk inFile (n_elements * 4)
  (vec3_loop (f32_view h r.1), r.2)

/-- Source `readVec2f`. -/
def readVec2f (h : Endian) (junk : Nat → Nat) (inFile : List Nat) (n_elements : Nat) :
    List Vec2 × List Nat :=
  let r := stream_read junk inFile (n_elements * 4)
  (vec2_loop (f32_view h r.1), r.2)

/-- Source `mesh_read`.  `inFile` is the content of the file, `out` the mesh
passed in, `junk b` the prior content of the `b`-th buffer read into (0 the
header, then vertices, normals, texcoords, indices, submeshes).  `header_t` has
three `u16` members, so `sizeof(header)` is 6. -/
def mesh_read (h : Endian) (junk : Nat → Nat → Nat) (inFile : List Nat) (out : Mesh) : Mesh :=
  let hd := stream_read (junk 0) inFile 6
  let header := u16_view h hd.1
  let n_vertices := header.getD 0 0
  let n_faces := header.getD 1 0
  let n_subMeshes := header.getD 2 0
  let vs := readVec3f h (junk 1) hd.2 (3 * n_vertices)
  let ns := readVec3f h (junk 2) vs.2 (3 * n_vertices)
  let ts := readVec2f h (junk 3) ns.2 (2 * n_vertices)
  let ix := stream_read (junk 4) ts.2 (3 * n_faces * 2)
  let sm := stream_read (junk 5) ix.2 (2 * n_subMeshes * 2)
  { out with
    n_vertices := n_vertices
    n_texcoord := n_vertices
    n_normals := n_vertices
    n_subMeshes := n_subMeshes
    vertices := vs.1
    normals := ns.1
    texcoord := ts.1
    indices := u16_view h ix.1
    subMeshes := subMesh_loop (u16_view h sm.1) }

/-- The mesh a caller declares before `mesh_read`: the constructor of `Mesh`
nulls the pointers; the counts are not initialised (`c` stands for them). -/
def Mesh.fresh (c : Nat) : Mesh :=
  { n_vertices := c, n_tris := c, n_texcoord := c, n_normals := c, n_subMeshes := c
    vertices := [], indices := [], texcoord := [], normals := [], subMeshes := [] }


/-! ## Closed forms and predicates used in the statements -/

/-- Every face of every submesh has exactly three indices. -/
def aiScene.allTriangles (s : aiScene) : Prop :=
  ∀ m ∈ s.mMeshes, ∀ f ∈ m.mFaces, f.mIndices.length = 3

/-- The normal array of a submesh can be read for each of its vertices: it is
present, or the submesh has no vertex. -/
def aiMesh.normalsReadable (m : aiMesh) : Prop :=
  m.mNormals = none → m.mVertices = []

instance (s : aiScene) : Decidable s.allTriangles :=
  inferInstanceAs (Decidable (∀ m ∈ s.mMeshes, ∀ f ∈ m.mFaces, f.mIndices.length = 3))

instance (m : aiMesh) : Decidable m.normalsReadable :=
  inferInstanceAs (Decidable (m.mNormals = none → m.mVertices = []))

/-- The bytes of the position block contributed by one submesh. -/
def position_bytes (h : Endian) (m : aiMesh) : List Nat :=
  f32_raw h (m.mVertices.flatMap (CopyData_3f h))

/-- The bytes of the normal block contributed by one submesh. -/
def normal_bytes (h : Endian) (m : aiMesh) : List Nat :=
  f32_raw h ((m.mNormals.getD []).flatMap (CopyData_3f h))

/-- The bytes of the texcoord block contributed by one submesh. -/
def texcoord_bytes (h : Endian) (m : aiMesh) : List Nat :=
  if m.HasTextureCoords0 then f32_raw h ((m.mTextureCoords0.getD []).flatMap (CopyData_2f h))
  else []

/-- The values `acc + index`, byte swapped, for the corners of one face. -/
def corner_values (h : Endian) (acc : Nat) (f : aiFace) : List Nat :=
  f.mIndices.map (fun i => swap_u16 h (acc + i))

/-- The `uint16_t` values of the index block in closed form, `acc` being the
number of vertices of the submeshes already written. -/
def index_values (h : Endian) : Nat → List aiMesh → List Nat
  | _, [] => []
  | acc, m :: ms =>
    m.mFaces.flatMap (corner_values h acc) ++ index_values h (acc + m.mNumVertices) ms

/-- Sum of the vertex counts of submeshes `0 .. i-1` (the `acc_i` of the format). -/
def aiScene.vertexOffset (s : aiScene) (i : Nat) : Nat :=
  ((s.mMeshes.take i).map aiMesh.mNumVertices).sum

/-- The index block as the format describes it: for each submesh in order, for
each of its faces in order, for each corner in order, the byte-swapped sum of
the submesh's vertex offset and the local index. -/
def expected_indices (h : Endian) (s : aiScene) : List Nat :=
  (List.range s.mMeshes.length).flatMap (fun i =>
    match s.mMeshes[i]? with
    | some m => m.mFaces.flatMap (fun f =>
        f.mIndices.map (fun local_index => swap_u16 h (s.vertexOffset i + local_index)))
    | none => [])

/-- Every face index of a submesh is below that submesh's vertex count. -/
def aiScene.indicesInRange (s : aiScene) : Prop :=
  ∀ m ∈ s.mMeshes, ∀ f ∈ m.mFaces, ∀ i ∈ f.mIndices, i < m.mNumVertices

instance (s : aiScene) : Decidable s.indicesInRange :=
  inferInstanceAs (Decidable
    (∀ m ∈ s.mMeshes, ∀ f ∈ m.mFaces, ∀ i ∈ f.mIndices, i < m.mNumVertices))

/-- The descriptor pairs for a list of triangle counts, without wrap-around:
each starts where the one before ends. -/
def descriptor_pairs : Nat → List Nat → List SubMesh
  | _, [] => []
  | start, c :: cs => ⟨start, c⟩ :: descriptor_pairs (start + c) cs

/-! ## Concrete scenes -/

/-- Bit pattern of the float `1.0f`. -/
def f32_one : Nat := 1065353216

/-- The characters of the file name `box`. -/
def boxName : List Nat := [98, 111, 120]

/-- A unit square: 4 vertices, 2 triangles, with normals and texture
coordinates, material reference 1. -/
def quadMesh : aiMesh :=
  { mVertices := [⟨0, 0, 0⟩, ⟨f32_one, 0, 0⟩, ⟨f32_one, f32_one, 0⟩, ⟨0, f32_one, 0⟩]
    mNormals := some [⟨0, 0, f32_one⟩, ⟨0, 0, f32_one⟩, ⟨0, 0, f32_one⟩, ⟨0, 0, f32_one⟩]
    mTextureCoords0 := some [⟨0, 0, 0⟩, ⟨f32_one, 0, 0⟩, ⟨f32_one, f32_one, 0⟩, ⟨0, f32_one, 0⟩]
    mFaces := [⟨[0, 1, 2]⟩, ⟨[0, 2, 3]⟩]
    mMaterialIndex := 1
    normals_size := by intro ns hns; cases hns; rfl
    texcoords_size := by intro ts hts; cases hts; rfl }

/-- A single triangle with normals and no texture coordinates, material
reference 2. -/
def triMesh : aiMesh :=
  { mVertices := [⟨0, 0, 0⟩, ⟨f32_one, 0, 0⟩, ⟨0, f32_one, 0⟩]
    mNormals := some [⟨0, 0, f32_one⟩, ⟨0, 0, f32_one⟩, ⟨0, 0, f32_one⟩]
    mTextureCoords0 := none
    mFaces := [⟨[0, 1, 2]⟩]
    mMaterialIndex := 2
    normals_size := by intro ns hns; cases hns; rfl
    texcoords_size := by intro ts hts; cases hts }

/-- A submesh holding one line segment: a face with two indices. -/
def lineMesh : aiMesh :=
  { mVertices := [⟨0, 0, 0⟩, ⟨f32_one, 0, 0⟩]
    mNormals := some [⟨0, 0, f32_one⟩, ⟨0, 0, f32_one⟩]
    mTextureCoords0 := none
    mFaces := [⟨[0, 1]⟩]
    mMaterialIndex := 1
    normals_size := by intro ns hns; cases hns; rfl
    texcoords_size := by intro ts hts; cases hts }

/-- The unit square with the reserved material reference 0. -/
def defaultMatMesh : aiMesh :=
  { quadMesh with mMaterialIndex := 0 }

/-- A submesh of 65536 vertices (all at the origin) with normals and no face. -/
def bigMesh : aiMesh :=
  { mVertices := List.replicate 65536 ⟨0, 0, 0⟩
    mNormals := some (List.replicate 65536 ⟨0, 0, f32_one⟩)
    mTextureCoords0 := none
    mFaces := []
    mMaterialIndex := 1
    normals_size := by
      intro ns hns; cases hns; rw [List.length_replicate, List.length_replicate]
    texcoords_size := by intro ts hts; cases hts }

/-- One submesh: the unit square. -/
def quadScene : aiScene := ⟨[quadMesh]⟩

/-- Two submeshes: the unit square, then the single triangle. -/
def twoScene : aiScene := ⟨[quadMesh, triMesh]⟩

/-- One submesh holding a line segment. -/
def lineScene : aiScene := ⟨[lineMesh]⟩

/-- One submesh with material reference 0. -/
def defaultMatScene : aiScene := ⟨[defaultMatMesh]⟩

/-- One submesh of 65536 vertices. -/
def bigScene : aiScene := ⟨[bigMesh]⟩

/-- The positions of a scene as the decoder would hold them: the vertices of
the submeshes, concatenated in submesh order. -/
def aiScene.positions (s : aiScene) : List Vec3 :=
  s.mMeshes.flatMap (fun m => m.mVertices.map (fun v => ⟨v.x, v.y, v.z⟩))

/-- The two bytes found on disk for the 16-bit value `x` written by a host of
byte order `h`: most significant byte first when the host is little-endian,
least significant byte first when it is big-endian. -/
def stored_u16 : Endian → Nat → List Nat
  | .little, x => [x / 256 % 256, x % 256]
  | .big, x => [x % 256, x / 256 % 256]

/-- The four bytes found on disk for the 32-bit pattern `p` written by a host
of byte order `h`. -/
def stored_f32 : Endian → Nat → List Nat
  | .little, p => [p / 16777216 % 256, p / 65536 % 256, p / 256 % 256, p % 256]
  | .big, p => [p % 256, p / 256 % 256, p / 65536 % 256, p / 16777216 % 256]

/-- The values of the index block before the byte swap: local index plus the
number of vertices of the submeshes before. -/
def global_indices : Nat → List aiMesh → List Nat
  | _, [] => []
  | acc, m :: ms =>
    m.mFaces.flatMap (fun f => f.mIndices.map (fun i => acc + i)) ++
      global_indices (acc + m.mNumVertices) ms

/-- The values of the descriptor block before the byte swap, with the 16-bit
wrap-around of `start` and `n_tris`. -/
def descriptor_fields : Nat → List aiMesh → List Nat
  | _, [] => []
  | start, m :: ms =>
    start :: m.mNumFaces % 65536 ::
      descriptor_fields ((start + m.mNumFaces % 65536) % 65536) ms

/-- The three coordinates of a vector. -/
def aiVector3D.xyz (v : aiVector3D) : List Nat := [v.x, v.y, v.z]

/-- The first two coordinates of a vector. -/
def aiVector3D.xy (v : aiVector3D) : List Nat := [v.x, v.y]

/-- The mesh stream described by the values it stores: header counts, name,
positions, normals, texcoords of the submeshes that have them, global indices,
descriptors, material bytes, each 16-bit and 32-bit value laid out by
`stored_u16 h` and `stored_f32 h`. -/
def stored_stream (h : Endian) (s : aiScene) (filename : List Nat) : List Nat :=
  [s.totalVertices % 65536, s.totalFaces % 65536, s.mMeshes.length % 65536,
    ((filename ++ dotMat).length + 1) % 65536].flatMap (stored_u16 h) ++
  ((filename ++ dotMat) ++ [0]) ++
  s.mMeshes.flatMap (fun m => m.mVertices.flatMap (fun v => v.xyz.flatMap (stored_f32 h))) ++
  s.mMeshes.flatMap (fun m =>
    (m.mNormals.getD []).flatMap (fun v => v.xyz.flatMap (stored_f32 h))) ++
  s.mMeshes.flatMap (fun m =>
    if m.HasTextureCoords0 then
      (m.mTextureCoords0.getD []).flatMap (fun v => v.xy.flatMap (stored_f32 h))
    else []) ++
  (global_indices 0 s.mMeshes).flatMap (stored_u16 h) ++
  (descriptor_fields 0 s.mMeshes).flatMap (stored_u16 h) ++
  s.mMeshes.map materialIdx

/-! ## What the decoder takes from the header -/

/-- Source `header_t` of `MeshReader.cpp`. -/
structure header_t where
  n_vertices : Nat
  n_faces : Nat
  n_subMeshes : Nat
  deriving DecidableEq, Repr

/-- The `header` variable of `mesh_read` after `inFile.read((char*) &header,
sizeof(header))`: the three `u16` the host sees in the 6 bytes read. -/
def mesh_read_header (h : Endian) (junk : Nat → Nat → Nat) (inFile : List Nat) : header_t :=
  let header := u16_view h (stream_read (junk 0) inFile 6).1
  ⟨header.getD 0 0, header.getD 1 0, header.getD 2 0⟩

/-- The bytes left in the stream when `mesh_read` starts reading the position
block. -/
def mesh_read_body (junk : Nat → Nat → Nat) (inFile : List Nat) : List Nat :=
  (stream_read (junk 0) inFile 6).2

/-- All vertex positions of a scene, submesh after submesh. -/
def aiScene.allVertices (s : aiScene) : List aiVector3D :=
  s.mMeshes.flatMap (fun m => m.mVertices)

/-- All normals of a scene, submesh after submesh. -/
def aiScene.allNormals (s : aiScene) : List aiVector3D :=
  s.mMeshes.flatMap (fun m => m.mNormals.getD [])

/-- The texture coordinates of the submeshes that have them, submesh after
submesh. -/
def aiScene.allTexCoords (s : aiScene) : List aiVector3D :=
  (s.mMeshes.filter aiMesh.HasTextureCoords0).flatMap (fun m => m.mTextureCoords0.getD [])

/-- The triple of floats the encoder stores for a vector. -/
def swapped3 (h : Endian) (v : aiVector3D) : Vec3 :=
  ⟨swap_f32 h v.x, swap_f32 h v.y, swap_f32 h v.z⟩

/-- The pair of floats the encoder stores for a texture coordinate. -/
def swapped2 (h : Endian) (v : aiVector3D) : Vec2 :=
  ⟨swap_f32 h v.x, swap_f32 h v.y⟩

/-- Buffers whose cells all held 0 before the read. -/
def zero_junk : Nat → Nat → Nat := fun _ _ => 0

/-! ## Material sidecar (`WriteMaterial`, `ReadMaterial` of `src/MeshConv.cpp`)

A C string is the list of its characters before the terminator.  A `char` is
kept as its integer value; whether `char` is signed is left to the platform, so
it is a parameter `signed_char`. -/

/-- Assimp `aiMaterial`, restricted to what `WriteMaterial` reads: the path of
diffuse texture 0 when `GetTexture(aiTextureType_DIFFUSE, 0, ..)` succeeds. -/
structure aiMaterial where
  diffuse : Option (List Nat)
  deriving DecidableEq, Repr

/-- Conversion of an integer to `char`. -/
def to_char (signed_char : Bool) (n : Int) : Int :=
  if signed_char then (n + 128) % 256 - 128 else n % 256

/-- The byte a `char` occupies in a file. -/
def char_byte (c : Int) : Nat := (c % 256).toNat

/-- A `std::ofstream` on a file opened for writing: the bytes in the file and
whether the stream is still good. -/
structure ofstream where
  file : List Nat
  good : Bool
  deriving DecidableEq, Repr

/-- The call `output.write(buffer, count)`.  On a stream that has failed
nothing is written.  A negative count writes nothing and the stream fails
(`sputn` returns 0, which is not `count`, so `badbit` is set).  A count beyond
the buffer reads past its end, a fault.  Else the first `count` characters of
the buffer are appended to the file. -/
def write_chars (output : ofstream) (buffer : List Nat) (count : Int) :
    Except Fault ofstream :=
  if output.good = false then .ok output
  else if count < 0 then .ok { output with good := false }
  else if (buffer.length : Int) < count then .error .outOfBounds
  else .ok { output with file := output.file ++ buffer.take count.toNat }

/-- The body of the loop of `WriteMaterial` for one material: nothing when it
has no diffuse texture, else `output.write(&diffuse_size, 1)` and
`output.write(diffuse_name, diffuse_size)` on the NUL-terminated path. -/
def diffuse_entry (signed_char : Bool) (pMaterial : aiMaterial) (output : ofstream) :
    Except Fault ofstream :=
  match pMaterial.diffuse with
  | none => .ok output
  | some diffuse_name =>
    let diffuse_size := to_char signed_char (to_char signed_char diffuse_name.length + 1)
    match write_chars output [char_byte diffuse_size] 1 with
    | .error e => .error e
    | .ok output1 => write_chars output1 (diffuse_name ++ [0]) diffuse_size

/-- The loop `for (int i = 1; i <= n_subMat; i++)` of `WriteMaterial`, from
index `i` with `k` iterations left. -/
def WriteMaterial_loop (signed_char : Bool) (mMaterials : List aiMaterial) :
    Nat → Nat → ofstream → Except Fault ofstream
  | _, 0, output => .ok output
  | i, k + 1, output =>
    match mMaterials[i]? with
    | none => .error .outOfBounds
    | some pMaterial =>
      match diffuse_entry signed_char pMaterial output with
      | .error e => .error e
      | .ok output1 => WriteMaterial_loop signed_char mMaterials (i + 1) k output1

/-- Source `WriteMaterial`: the content of the `.mat` file, given the materials
of the scene the importer returned (`mNumMaterials` is the length of the list). -/
def WriteMaterial (signed_char : Bool) (mMaterials : List aiMaterial) (filename : List Nat) :
    Except Fault (List Nat) :=
  let path := filename ++ dotMat
  let name_size := to_char signed_char (to_char signed_char path.length + 1)
  let n_subMat := to_char signed_char (to_char signed_char mMaterials.length - 1)
  match write_chars ⟨[], true⟩ [char_byte name_size, char_byte n_subMat] 2 with
  | .error e => .error e
  | .ok output1 =>
    match write_chars output1 (path ++ [0]) name_size with
    | .error e => .error e
    | .ok output2 =>
      match WriteMaterial_loop signed_char mMaterials 1 n_subMat.toNat output2 with
      | .error e => .error e
      | .ok output3 => .ok output3.file

/-- What `ReadMaterial` reads (and prints): the characters read into `name`,
the count `n_subMat`, the characters read into `tex_diffuse` at each iteration,
and the bytes of the file it has not extracted. -/
structure MaterialRead where
  name : List Nat
  n_subMat : Int
  textures : List (List Nat)
  rest : List Nat
  deriving DecidableEq, Repr

/-- A `std::ifstream` on a file: the bytes not yet extracted and whether the
stream is still good. -/
structure ifstream where
  unread : List Nat
  good : Bool
  deriving DecidableEq, Repr

/-- The call `input.read(buffer, count)` on a buffer of `size` characters that
was not initialised: the first `count` cells of the buffer afterwards, and the
stream.  On a stream that has failed, and for a negative count (`sgetn`
returns 0, which is not `count`, so the stream fails), nothing is extracted
and the cells keep what they held (`junk`).  A count beyond the buffer writes
past its end, a fault.  Else the call is `stream_read`, and the stream fails
when fewer than `count` bytes were left. -/
def read_chars (junk : Nat → Nat) (size : Nat) (input : ifstream) (count : Int) :
    Except Fault (List Nat × ifstream) :=
  if input.good = false ∨ count < 0 then
    .ok ((List.range count.toNat).map junk, { input with good := false })
  else if (size : Int) < count then .error .outOfBounds
  else
    .ok ((stream_read junk input.unread count.toNat).1,
      ⟨(stream_read junk input.unread count.toNat).2,
        decide (count.toNat ≤ input.unread.length)⟩)

/-- The loop `for (int i = 0; i < n_subMat; i++)` of `ReadMaterial` with `k`
iterations left: the texture names read and the stream afterwards. -/
def ReadMaterial_loop (signed_char : Bool) (junk : Nat → Nat → Nat) :
    Nat → ifstream → Except Fault (List (List Nat) × ifstream)
  | 0, input => .ok ([], input)
  | k + 1, input =>
    match read_chars (junk 2) 1 input 1 with
    | .error e => .error e
    | .ok size =>
      let diffuse_size := to_char signed_char (size.1.getD 0 0)
      match read_chars (junk 3) 256 size.2 diffuse_size with
      | .error e => .error e
      | .ok tex =>
        match ReadMaterial_loop signed_char junk k tex.2 with
        | .error e => .error e
        | .ok more => .ok (tex.1 :: more.1, more.2)

/-- Source `ReadMaterial`, on the content of the `.mat` file. -/
def ReadMaterial (signed_char : Bool) (junk : Nat → Nat → Nat) (input : List Nat) :
    Except Fault MaterialRead :=
  match read_chars (junk 0) 2 ⟨input, true⟩ 2 with
  | .error e => .error e
  | .ok size_info =>
    let name_size := to_char signed_char (size_info.1.getD 0 0)
    let n_subMat := to_char signed_char (size_info.1.getD 1 0)
    match read_chars (junk 1) 256 size_info.2 name_size with
    | .error e => .error e
    | .ok name =>
      match ReadMaterial_loop signed_char junk n_subMat.toNat name.2 with
      | .error e => .error e
      | .ok texs => .ok ⟨name.1, n_subMat, texs.1, texs.2.unread⟩

/-- The entry the sidecar layout gives a material: nothing without a diffuse
texture, else the length of the file name plus one, the file name and a NUL. -/
def layout_entry (m : aiMaterial) : List Nat :=
  match m.diffuse with
  | none => []
  | some t => [t.length + 1] ++ t ++ [0]

/-- A material with the diffuse texture `t` (one character). -/
def texMaterial : aiMaterial := ⟨some [116]⟩

/-- A material without diffuse texture. -/
def plainMaterial : aiMaterial := ⟨none⟩

/-! ## OBJ face parsing (`src/objloader.cpp`)

A `const char*` is the list of the character codes from the pointer to the
terminator; advancing the pointer drops characters.  Codes used: 9 tab, 13
carriage return, 32 space, 43 `+`, 45 `-`, 47 `/`, 48 to 57 the digits, 102 `f`. -/

/-- C `isspace`: space, tab, line feed, vertical tab, form feed, carriage return. -/
def isspace (c : Nat) : Bool := c == 32 || (decide (9 ≤ c) && decide (c ≤ 13))

/-- C `isdigit`. -/
def isdigit (c : Nat) : Bool := decide (48 ≤ c) && decide (c ≤ 57)

/-- The digit loop of C `atoi`: accumulate decimal digits until a character
that is not a digit. -/
def atoi_digits : Nat → List Nat → Nat
  | acc, [] => acc
  | acc, c :: cs => if isdigit c then atoi_digits (acc * 10 + (c - 48)) cs else acc

/-- The number a decimal integer text denotes, as `strtol(s, NULL, 10)` reads
it: skip white space, take an optional sign, read the digits. -/
def strtol_value (s : List Nat) : Int :=
  match s.dropWhile isspace with
  | [] => 0
  | c :: cs =>
    if c = 45 then -(atoi_digits 0 cs : Int)
    else if c = 43 then (atoi_digits 0 cs : Int)
    else (atoi_digits 0 (c :: cs) : Int)

/-- The result of `strtol` for a number: the number itself, or `LONG_MIN`,
`LONG_MAX` when it is outside the range of a 64-bit `long`. -/
def to_long (n : Int) : Int :=
  if n < -9223372036854775808 then -9223372036854775808
  else if 9223372036854775807 < n then 9223372036854775807
  else n

/-- Conversion of a `long` to a 32-bit `int`. -/
def to_int (n : Int) : Int := (n + 2147483648) % 4294967296 - 2147483648

/-- C `atoi` as the C library of the platforms the source names (Linux, Apple)
computes it, `(int) strtol(s, NULL, 10)`: beyond the range of `int` the value
is not the number written but its conversion to 32 bits. -/
def atoi (s : List Nat) : Int := to_int (to_long (strtol_value s))

/-- C `strcspn`: length of the initial segment without a character of `reject`. -/
def strcspn (s : List Nat) (reject : List Nat) : Nat :=
  (s.takeWhile (fun c => !reject.contains c)).length

/-- C `strspn`: length of the initial segment made of characters of `accept`. -/
def strspn (s : List Nat) (accept : List Nat) : Nat :=
  (s.takeWhile (fun c => accept.contains c)).length

/-- Source `Vertex` of `objloader.cpp`. -/
structure Vertex where
  v : Int
  vt : Int
  vn : Int
  deriving DecidableEq, Repr

/-- The members of `ObjReader` that `getInt3` reads: the sizes of the vectors
`v`, `vt` and `vn` (below 2^31, so that `(int)v.size()` is the size). -/
structure ObjReader where
  v_size : Nat
  vt_size : Nat
  vn_size : Nat
  deriving DecidableEq, Repr

/-- Source `ObjReader::fix_v`. -/
def ObjReader.fix_v (r : ObjReader) (index : Int) : Int :=
  if index > 0 then index - 1 else if index = 0 then 0 else (r.v_size : Int) + index

/-- Source `ObjReader::fix_vt`. -/
def ObjReader.fix_vt (r : ObjReader) (index : Int) : Int :=
  if index > 0 then index - 1 else if index = 0 then 0 else (r.vt_size : Int) + index

/-- Source `ObjReader::fix_vn`. -/
def ObjReader.fix_vn (r : ObjReader) (index : Int) : Int :=
  if index > 0 then index - 1 else if index = 0 then 0 else (r.vn_size : Int) + index

/-- Source `ObjReader::getInt3`: the vertex returned and the token afterwards. -/
def ObjReader.getInt3 (r : ObjReader) (token : List Nat) : Vertex × List Nat :=
  let v0 : Vertex := ⟨-1, -1, -1⟩
  let v1 : Vertex := { v0 with v := r.fix_v (atoi token) }
  let token1 := token.drop (strcspn token [47, 32, 9, 13])
  if token1.head? ≠ some 47 then (v1, token1)
  else
    let token2 := token1.drop 1
    if token2.head? = some 47 then
      let token3 := token2.drop 1
      let v2 : Vertex := { v1 with vn := r.fix_vn (atoi token3) }
      (v2, token3.drop (strcspn token3 [32, 9, 13]))
    else
      let v2 : Vertex := { v1 with vt := r.fix_vt (atoi token2) }
      let token3 := token2.drop (strcspn token2 [47, 32, 9, 13])
      if token3.head? ≠ some 47 then (v2, token3)
      else
        let token4 := token3.drop 1
        let v3 : Vertex := { v2 with vn := r.fix_vn (atoi token4) }
        (v3, token4.drop (strcspn token4 [32, 9, 13]))

/-- Source `parseSepOpt`. -/
def parseSepOpt (token : List Nat) : List Nat :=
  token.drop (strspn token [32, 9])

/-- Source `parseSep`: `none` when it throws "separator expected". -/
def parseSep (token : List Nat) : Option (List Nat) :=
  let sep := strspn token [32, 9]
  if sep = 0 then none else some (token.drop sep)

/-- One iteration of the loop `while (token[0])` of the face branch: the token
and the face afterwards. -/
def face_step (r : ObjReader) (state : List Nat × List Vertex) : List Nat × List Vertex :=
  (parseSepOpt (r.getInt3 state.1).2, state.2 ++ [(r.getInt3 state.1).1])

/-- The loop `while (token[0]) { face.push_back(getInt3(token));
parseSepOpt(token); }` run for at most `fuel` iterations: the face when the
loop exits within them, `none` when it is still running after them. -/
def face_loop (r : ObjReader) : Nat → List Nat → List Vertex → Option (List Vertex)
  | 0, token, face => if token = [] then some face else none
  | fuel + 1, token, face =>
    if token = [] then some face
    else face_loop r fuel (face_step r (token, face)).1 (face_step r (token, face)).2

/-- The face branch of the constructor of `ObjReader`, entered on a line whose
token starts with `f` and a separator: `parseSep(token += 1)`, then the loop.
The result is the face pushed to `curGroup`; `none` when `parseSep` throws or
the loop is still running after `fuel` iterations. -/
def face_branch (r : ObjReader) (fuel : Nat) (token : List Nat) : Option (List Vertex) :=
  match parseSep (token.drop 1) with
  | none => none
  | some token1 => face_loop r fuel token1 []

/-- A reader with 8 positions, 4 texture coordinates and 6 normals. -/
def sampleReader : ObjReader := ⟨8, 4, 6⟩

/-- The characters of the line `f 1 2 3` followed by a carriage return. -/
def crLine : List Nat := [102, 32, 49, 32, 50, 32, 51, 13]

/-- The characters of the line `f 1 2 3`. -/
def lfLine : List Nat := [102, 32, 49, 32, 50, 32, 51]

/-- A stream that ends inside the position block, in the decoder's layout for
a big-endian reader: the header announces 2 vertices, no triangle and no
submesh, and only the 12 bytes of the first position (1, 0, 0) follow. -/
def truncatedStream : List Nat :=
  [0, 2, 0, 0, 0, 0, 63, 128, 0, 0, 0, 0, 0, 0, 0, 0, 0, 0]

/-- Buffers whose cells all held 0xAA before the read. -/
def stale_junk : Nat → Nat → Nat := fun _ _ => 170

/-! ## Byte-level lemmas -/

theorem swap_u16_eq (h : Endian) (i : Nat) :
    swap_u16 h i = (i % 256) * 256 + i / 256 % 256 := by
  cases h <;> simp [swap_u16, u16_mem, u16_val] <;> omega

theorem swap_u16_lt (h : Endian) (i : Nat) : swap_u16 h i < 65536 := by
  rw [swap_u16_eq]; omega

theorem swap_u16_swap_u16 (h : Endian) (i : Nat) (hi : i < 65536) :
    swap_u16 h (swap_u16 h i) = i := by
  rw [swap_u16_eq, swap_u16_eq]
  have h1 : i / 256 % 256 = i / 256 := Nat.mod_eq_of_lt (by omega)
  have h2 : (i % 256 * 256 + i / 256) % 256 = i / 256 := by omega
  have h3 : (i % 256 * 256 + i / 256) / 256 = i % 256 := by omega
  rw [h1, h2, h3]; omega

theorem u16_val_mem (h : Endian) (i : Nat) : u16_val h (u16_mem h i) = i % 65536 := by
  cases h <;> simp [u16_mem, u16_val] <;> omega

theorem u16_view_raw (h : Endian) (xs : List Nat) :
    u16_view h (u16_raw h xs) = xs.map (· % 65536) := by
  induction xs with
  | nil => rfl
  | cons x xs ih => simp [u16_raw, u16_view, ih, u16_val_mem]

theorem u16_raw_length (h : Endian) (xs : List Nat) :
    (u16_raw h xs).length = 2 * xs.length := by
  induction xs with
  | nil => rfl
  | cons x xs ih => simp [u16_raw, ih]; omega

theorem u16_raw_append (h : Endian) (xs ys : List Nat) :
    u16_raw h (xs ++ ys) = u16_raw h xs ++ u16_raw h ys := by
  induction xs with
  | nil => rfl
  | cons x xs ih => simp [u16_raw, ih]

theorem f32_raw_length (h : Endian) (xs : List Nat) :
    (f32_raw h xs).length = 4 * xs.length := by
  induction xs with
  | nil => rfl
  | cons x xs ih => simp [f32_raw, ih]; omega

theorem sum_u16_eq (acc : Nat) (cs : List Nat) (hacc : acc < 65536) :
    sum_u16 acc cs = (acc + cs.sum) % 65536 := by
  induction cs generalizing acc with
  | nil => simp [sum_u16]; omega
  | cons c cs ih =>
    simp only [sum_u16, List.sum_cons]
    rw [ih _ (Nat.mod_lt _ (by norm_num))]
    omega

/-! ## Header -/

theorem header_fields_view (h : Endian) (s : aiScene) (len : Nat) :
    (u16_view h (WriteHeader h s len)).map (swap_u16 h) =
      [s.totalVertices % 65536, s.totalFaces % 65536, s.mMeshes.length % 65536,
       len % 65536] := by
  have hm : ∀ x, swap_u16 h (swap_u16 h x % 65536) = x % 65536 := by
    intro x
    rw [Nat.mod_eq_of_lt (swap_u16_lt h x)]
    have e : swap_u16 h x = swap_u16 h (x % 65536) := by
      rw [swap_u16_eq, swap_u16_eq]; omega
    rw [e, swap_u16_swap_u16 h _ (Nat.mod_lt _ (by norm_num))]
  simp only [WriteHeader, u16_view_raw, header_fields, List.map_cons, List.map_nil, hm,
    sum_u16_eq 0 _ (by norm_num : 0 < 65536), Nat.zero_add, Nat.mod_mod, aiScene.totalVertices,
    aiScene.totalFaces]

theorem WriteHeader_length (h : Endian) (s : aiScene) (len : Nat) :
    (WriteHeader h s len).length = 8 := by
  simp [WriteHeader, u16_raw_length, header_fields]

/-! ## The blocks of the stream in closed form -/

theorem aiMesh.normalsReadable_of_HasNormals (m : aiMesh) (hm : m.HasNormals = true) :
    m.normalsReadable := by
  intro hn
  simp [aiMesh.HasNormals, hn] at hm

theorem WriteData_loop_ok (copyFunc : aiVector3D → List Nat) (vs : List aiVector3D) :
    WriteData_loop copyFunc vs.length vs = .ok (vs.flatMap copyFunc) := by
  induction vs with
  | nil => rfl
  | cons v vs ih => simp [WriteData_loop, ih]

theorem WriteData_some (h : Endian) (vs : List aiVector3D) (n : Nat) (hn : vs.length = n)
    (element_size : Nat) (copyFunc : aiVector3D → List Nat)
    (hc : (vs.flatMap copyFunc).length = element_size * vs.length) :
    WriteData h (some vs) n element_size copyFunc = .ok (f32_raw h (vs.flatMap copyFunc)) := by
  subst hn
  simp only [WriteData, WriteData_loop_ok]
  rw [List.take_of_length_le (by rw [hc, Nat.mul_comm])]

theorem forMeshes_ok (f : aiMesh → Except Fault (List Nat)) (g : aiMesh → List Nat)
    (ms : List aiMesh) (hf : ∀ m ∈ ms, f m = .ok (g m)) :
    forMeshes f ms = .ok (ms.flatMap g) := by
  induction ms with
  | nil => rfl
  | cons m ms ih =>
    have h1 := hf m (List.mem_cons_self _ _)
    have h2 := ih (fun m hm => hf m (List.mem_cons_of_mem _ hm))
    simp [forMeshes, h1, h2]

theorem CopyData_3f_flatMap_length (h : Endian) (vs : List aiVector3D) :
    (vs.flatMap (CopyData_3f h)).length = 3 * vs.length := by
  induction vs with
  | nil => simp
  | cons v vs ih => simp [List.flatMap_cons, CopyData_3f, ih]; omega

theorem CopyData_2f_flatMap_length (h : Endian) (vs : List aiVector3D) :
    (vs.flatMap (CopyData_2f h)).length = 2 * vs.length := by
  induction vs with
  | nil => simp
  | cons v vs ih => simp [List.flatMap_cons, CopyData_2f, ih]; omega

theorem WritePositions_ok (h : Endian) (s : aiScene) :
    WritePositions h s = .ok (s.mMeshes.flatMap (position_bytes h)) := by
  apply forMeshes_ok
  intro m _
  exact WriteData_some h m.mVertices _ rfl 3 _ (CopyData_3f_flatMap_length h _)

theorem WriteNormals_ok (h : Endian) (s : aiScene)
    (hn : ∀ m ∈ s.mMeshes, m.normalsReadable) :
    WriteNormals h s = .ok (s.mMeshes.flatMap (normal_bytes h)) := by
  apply forMeshes_ok
  intro m hm
  cases hN : m.mNormals with
  | none =>
    have hv := hn m hm hN
    simp [WriteData, normal_bytes, hN, aiMesh.mNumVertices, hv, f32_raw]
  | some ns =>
    simp only [normal_bytes, hN, Option.getD_some]
    exact WriteData_some h ns _ (m.normals_size ns hN) 3 _ (CopyData_3f_flatMap_length h _)

theorem WriteTexCoord_ok (h : Endian) (s : aiScene) :
    WriteTexCoord h s = .ok (s.mMeshes.flatMap (texcoord_bytes h)) := by
  apply forMeshes_ok
  intro m _
  by_cases ht : m.HasTextureCoords0 = true
  · simp only [ht, texcoord_bytes, if_true]
    cases hT : m.mTextureCoords0 with
    | none => simp [aiMesh.HasTextureCoords0, hT] at ht
    | some ts =>
      simp only [Option.getD_some]
      exact WriteData_some h ts _ (m.texcoords_size ts hT) 2 _ (CopyData_2f_flatMap_length h _)
  · simp [ht, texcoord_bytes]

theorem flatMap_length_const {α : Type} (ms : List α) (g : α → List Nat) (c : Nat)
    (w : α → Nat) (hg : ∀ m, (g m).length = c * w m) :
    (ms.flatMap g).length = c * (ms.map w).sum := by
  induction ms with
  | nil => simp
  | cons m ms ih => simp [List.flatMap_cons, hg, ih, Nat.mul_add]

theorem position_block_length (h : Endian) (s : aiScene) :
    (s.mMeshes.flatMap (position_bytes h)).length = 12 * s.totalVertices := by
  apply flatMap_length_const
  intro m
  rw [position_bytes, f32_raw_length, CopyData_3f_flatMap_length, aiMesh.mNumVertices]
  omega

theorem normal_block_length (h : Endian) (s : aiScene)
    (hn : ∀ m ∈ s.mMeshes, m.normalsReadable) :
    (s.mMeshes.flatMap (normal_bytes h)).length = 12 * s.totalVertices := by
  unfold aiScene.totalVertices
  generalize s.mMeshes = ms at hn
  induction ms with
  | nil => simp
  | cons m ms ih =>
    have h2 := ih (fun m hm => hn m (List.mem_cons_of_mem _ hm))
    have h1 : (normal_bytes h m).length = 12 * m.mNumVertices := by
      cases hN : m.mNormals with
      | none =>
        have hv := hn m (List.mem_cons_self _ _) hN
        simp [normal_bytes, hN, aiMesh.mNumVertices, hv, f32_raw]
      | some ns =>
        rw [normal_bytes, hN, Option.getD_some, f32_raw_length, CopyData_3f_flatMap_length,
          m.normals_size ns hN, aiMesh.mNumVertices]
        omega
    simp [List.flatMap_cons, h1, h2, Nat.mul_add]

theorem texcoord_block_length (h : Endian) (s : aiScene) :
    (s.mMeshes.flatMap (texcoord_bytes h)).length = 8 * s.totalTexVertices := by
  unfold aiScene.totalTexVertices
  generalize s.mMeshes = ms
  induction ms with
  | nil => simp
  | cons m ms ih =>
    by_cases ht : m.HasTextureCoords0 = true
    · have h1 : (texcoord_bytes h m).length = 8 * m.mNumVertices := by
        cases hT : m.mTextureCoords0 with
        | none => simp [aiMesh.HasTextureCoords0, hT] at ht
        | some ts =>
          rw [texcoord_bytes, if_pos ht, hT, Option.getD_some, f32_raw_length,
            CopyData_2f_flatMap_length, m.texcoords_size ts hT, aiMesh.mNumVertices]
          omega
      simp [List.flatMap_cons, List.filter_cons, ht, h1, ih, Nat.mul_add]
    · simp [List.flatMap_cons, List.filter_cons, ht, texcoord_bytes, ih]

/-! ## Index block -/

theorem face_indices_ok (h : Endian) (acc : Nat) (fs : List aiFace)
    (ht : ∀ f ∈ fs, f.mIndices.length = 3) :
    face_indices h acc fs = .ok (fs.flatMap (corner_values h acc)) := by
  induction fs with
  | nil => rfl
  | cons f fs ih =>
    have h1 := ht f (List.mem_cons_self _ _)
    have h2 := ih (fun f hf => ht f (List.mem_cons_of_mem _ hf))
    match hf : f.mIndices, h1 with
    | [i0, i1, i2], _ => simp [face_indices, hf, h2, corner_values]

theorem face_indices_error (h : Endian) (acc : Nat) (fs : List aiFace)
    (ht : ∃ f ∈ fs, f.mIndices.length ≠ 3) :
    face_indices h acc fs = .error .assertFailed := by
  induction fs with
  | nil => simp at ht
  | cons f fs ih =>
    by_cases hf : f.mIndices.length = 3
    · have h2 : face_indices h acc fs = .error .assertFailed := by
        apply ih
        obtain ⟨g, hg, hg3⟩ := ht
        rcases List.mem_cons.mp hg with rfl | hg
        · exact absurd hf hg3
        · exact ⟨g, hg, hg3⟩
      match hi : f.mIndices, hf with
      | [i0, i1, i2], _ => simp [face_indices, hi, h2]
    · unfold face_indices
      split
      · rename_i i0 i1 i2 hi
        simp [hi] at hf
      · rfl

theorem WriteIndices_loop_ok (h : Endian) (acc : Nat) (ms : List aiMesh)
    (ht : ∀ m ∈ ms, ∀ f ∈ m.mFaces, f.mIndices.length = 3) :
    WriteIndices_loop h acc ms = .ok (u16_raw h (index_values h acc ms)) := by
  induction ms generalizing acc with
  | nil => rfl
  | cons m ms ih =>
    have h1 := face_indices_ok h acc m.mFaces (ht m (List.mem_cons_self _ _))
    have h2 := ih (acc + m.mNumVertices) (fun m hm => ht m (List.mem_cons_of_mem _ hm))
    simp [WriteIndices_loop, h1, h2, index_values, u16_raw_append]

theorem WriteIndices_loop_error (h : Endian) (acc : Nat) (ms : List aiMesh)
    (ht : ∃ m ∈ ms, ∃ f ∈ m.mFaces, f.mIndices.length ≠ 3) :
    WriteIndices_loop h acc ms = .error .assertFailed := by
  induction ms generalizing acc with
  | nil => simp at ht
  | cons m ms ih =>
    by_cases hm : ∃ f ∈ m.mFaces, f.mIndices.length ≠ 3
    · simp [WriteIndices_loop, face_indices_error h acc m.mFaces hm]
    · have h1 : face_indices h acc m.mFaces = .ok (m.mFaces.flatMap (corner_values h acc)) := by
        apply face_indices_ok
        intro f hf
        by_contra hne
        exact hm ⟨f, hf, hne⟩
      have h2 : WriteIndices_loop h (acc + m.mNumVertices) ms = .error .assertFailed := by
        apply ih
        obtain ⟨g, hg, hg3⟩ := ht
        rcases List.mem_cons.mp hg with rfl | hg
        · exact absurd hg3 hm
        · exact ⟨g, hg, hg3⟩
      simp [WriteIndices_loop, h1, h2]

theorem index_values_length (h : Endian) (acc : Nat) (ms : List aiMesh)
    (ht : ∀ m ∈ ms, ∀ f ∈ m.mFaces, f.mIndices.length = 3) :
    (index_values h acc ms).length = 3 * (ms.map aiMesh.mNumFaces).sum := by
  induction ms generalizing acc with
  | nil => rfl
  | cons m ms ih =>
    have h2 := ih (acc + m.mNumVertices) (fun m hm => ht m (List.mem_cons_of_mem _ hm))
    have h1 : (m.mFaces.flatMap (corner_values h acc)).length = 3 * m.mNumFaces := by
      have hm := ht m (List.mem_cons_self _ _)
      unfold aiMesh.mNumFaces
      generalize m.mFaces = fs at hm
      induction fs with
      | nil => rfl
      | cons f fs ihf =>
        have := hm f (List.mem_cons_self _ _)
        have := ihf (fun f hf => hm f (List.mem_cons_of_mem _ hf))
        simp only [List.flatMap_cons, List.length_append, corner_values, List.length_map,
          List.length_cons] at *
        omega
    simp only [index_values, List.length_append, h1, h2, List.map_cons, List.sum_cons]
    omega

theorem index_values_lt (h : Endian) (acc : Nat) (ms : List aiMesh) :
    ∀ x ∈ index_values h acc ms, x < 65536 := by
  induction ms generalizing acc with
  | nil => simp [index_values]
  | cons m ms ih =>
    intro x hx
    simp only [index_values, List.mem_append, List.mem_flatMap, corner_values,
      List.mem_map] at hx
    rcases hx with ⟨f, _, i, _, rfl⟩ | hx
    · exact swap_u16_lt _ _
    · exact ih _ x hx

theorem u16_view_raw_of_lt (h : Endian) (xs : List Nat) (hx : ∀ x ∈ xs, x < 65536) :
    u16_view h (u16_raw h xs) = xs := by
  rw [u16_view_raw]
  conv_rhs => rw [← List.map_id xs]
  apply List.map_congr_left
  intro x hm
  simp [Nat.mod_eq_of_lt (hx x hm)]

theorem index_values_eq_range (h : Endian) (acc : Nat) (ms : List aiMesh) :
    index_values h acc ms =
      (List.range ms.length).flatMap (fun i =>
        match ms[i]? with
        | some m => m.mFaces.flatMap (fun f =>
            f.mIndices.map (fun local_index =>
              swap_u16 h (acc + ((ms.take i).map aiMesh.mNumVertices).sum + local_index)))
        | none => []) := by
  induction ms generalizing acc with
  | nil => rfl
  | cons m ms ih =>
    rw [index_values, ih, List.length_cons, List.range_succ_eq_map, List.flatMap_cons,
      List.flatMap_map]
    congr 1
    · simp only [List.getElem?_cons_zero, List.take_zero, List.map_nil, List.sum_nil,
        Nat.add_zero]
      rfl
    · apply List.flatMap_congr
      intro i _
      simp [Nat.add_assoc]

theorem index_values_eq_expected (h : Endian) (s : aiScene) :
    index_values h 0 s.mMeshes = expected_indices h s := by
  rw [index_values_eq_range]
  simp [expected_indices, aiScene.vertexOffset]

theorem index_values_bound (h : Endian) (acc : Nat) (ms : List aiMesh)
    (hr : ∀ m ∈ ms, ∀ f ∈ m.mFaces, ∀ i ∈ f.mIndices, i < m.mNumVertices) :
    ∀ x ∈ index_values h acc ms,
      ∃ g, g < acc + (ms.map aiMesh.mNumVertices).sum ∧ x = swap_u16 h g := by
  induction ms generalizing acc with
  | nil => simp [index_values]
  | cons m ms ih =>
    intro x hx
    simp only [index_values, List.mem_append, List.mem_flatMap, corner_values,
      List.mem_map] at hx
    rcases hx with ⟨f, hf, i, hi, rfl⟩ | hx
    · have := hr m (List.mem_cons_self _ _) f hf i hi
      exact ⟨acc + i, by simp only [List.map_cons, List.sum_cons]; omega, rfl⟩
    · obtain ⟨g, hg, hx⟩ := ih (acc + m.mNumVertices)
        (fun m hm => hr m (List.mem_cons_of_mem _ hm)) x hx
      exact ⟨g, by simp only [List.map_cons, List.sum_cons]; omega, hx⟩

/-! ## Submesh descriptors -/

theorem swap_u16_mod (h : Endian) (x : Nat) : swap_u16 h (x % 65536) = swap_u16 h x := by
  rw [swap_u16_eq, swap_u16_eq]; omega

theorem subMesh_fields_lt (h : Endian) (start : Nat) (ms : List aiMesh) :
    ∀ x ∈ subMesh_fields h start ms, x < 65536 := by
  induction ms generalizing start with
  | nil => simp [subMesh_fields]
  | cons m ms ih =>
    intro x hx
    simp only [subMesh_fields, List.mem_cons] at hx
    rcases hx with rfl | rfl | hx
    · exact swap_u16_lt _ _
    · exact swap_u16_lt _ _
    · exact ih _ x hx

theorem subMesh_fields_decode (h : Endian) (start : Nat) (ms : List aiMesh)
    (hb : start + (ms.map aiMesh.mNumFaces).sum ≤ 65535) :
    subMesh_loop ((subMesh_fields h start ms).map (swap_u16 h)) =
      descriptor_pairs start (ms.map aiMesh.mNumFaces) := by
  induction ms generalizing start with
  | nil => rfl
  | cons m ms ih =>
    simp only [List.map_cons, List.sum_cons] at hb
    have h1 : m.mNumFaces % 65536 = m.mNumFaces := Nat.mod_eq_of_lt (by omega)
    have h2 : (start + m.mNumFaces) % 65536 = start + m.mNumFaces :=
      Nat.mod_eq_of_lt (by omega)
    simp only [subMesh_fields, List.map_cons, subMesh_loop, descriptor_pairs, h1, h2]
    rw [ih (start + m.mNumFaces) (by omega), swap_u16_swap_u16 h start (by omega),
      swap_u16_swap_u16 h m.mNumFaces (by omega)]

theorem descriptor_pairs_length (start : Nat) (cs : List Nat) :
    (descriptor_pairs start cs).length = cs.length := by
  induction cs generalizing start with
  | nil => rfl
  | cons c cs ih => simp [descriptor_pairs, ih]

theorem descriptor_pairs_head (start : Nat) (cs : List Nat) (hc : 0 < cs.length) :
    ((descriptor_pairs start cs).getD 0 ⟨0, 0⟩).start = start := by
  cases cs with
  | nil => simp at hc
  | cons c cs => rfl

theorem descriptor_pairs_size (start : Nat) (cs : List Nat) (i : Nat) (hi : i < cs.length) :
    ((descriptor_pairs start cs).getD i ⟨0, 0⟩).size = cs.getD i 0 := by
  induction cs generalizing start i with
  | nil => simp at hi
  | cons c cs ih =>
    cases i with
    | zero => rfl
    | succ i =>
      simp only [descriptor_pairs, List.getD_cons_succ]
      exact ih _ i (by simpa using hi)

theorem descriptor_pairs_step (start : Nat) (cs : List Nat) (i : Nat)
    (hi : i + 1 < cs.length) :
    ((descriptor_pairs start cs).getD (i + 1) ⟨0, 0⟩).start =
      ((descriptor_pairs start cs).getD i ⟨0, 0⟩).start +
      ((descriptor_pairs start cs).getD i ⟨0, 0⟩).size := by
  induction cs generalizing start i with
  | nil => simp at hi
  | cons c cs ih =>
    cases i with
    | zero =>
      cases cs with
      | nil => simp at hi
      | cons c2 cs => rfl
    | succ i =>
      simp only [descriptor_pairs, List.getD_cons_succ]
      exact ih _ i (by simpa using hi)

theorem descriptor_pairs_last (start : Nat) (cs : List Nat) (hc : 0 < cs.length) :
    ((descriptor_pairs start cs).getD (cs.length - 1) ⟨0, 0⟩).start +
      ((descriptor_pairs start cs).getD (cs.length - 1) ⟨0, 0⟩).size = start + cs.sum := by
  induction cs generalizing start with
  | nil => simp at hc
  | cons c cs ih =>
    cases cs with
    | nil => simp [descriptor_pairs]
    | cons c2 cs =>
      have := ih (start + c) (by simp)
      simp only [List.length_cons, Nat.add_sub_cancel, List.sum_cons] at this ⊢
      simp only [descriptor_pairs, List.getD_cons_succ] at this ⊢
      omega

theorem WriteSubMeshes_decode (h : Endian) (s : aiScene) (hT : s.totalFaces ≤ 65535) :
    subMesh_loop ((u16_view h (WriteSubMeshes h s)).map (swap_u16 h)) =
      descriptor_pairs 0 (s.mMeshes.map aiMesh.mNumFaces) := by
  rw [WriteSubMeshes, u16_view_raw_of_lt h _ (subMesh_fields_lt h 0 _)]
  exact subMesh_fields_decode h 0 _ (by simpa [aiScene.totalFaces] using hT)

theorem subMesh_fields_length (h : Endian) (start : Nat) (ms : List aiMesh) :
    (subMesh_fields h start ms).length = 2 * ms.length := by
  induction ms generalizing start with
  | nil => rfl
  | cons m ms ih => simp [subMesh_fields, ih]; omega

theorem WriteSubMeshes_length (h : Endian) (s : aiScene) :
    (WriteSubMeshes h s).length = 4 * s.mMeshes.length := by
  rw [WriteSubMeshes, u16_raw_length, subMesh_fields_length]; omega

/-! ## The whole stream -/

theorem ConvertMesh_ok (h : Endian) (s : aiScene) (filename : List Nat)
    (hn : ∀ m ∈ s.mMeshes, m.normalsReadable) (ht : s.allTriangles) :
    ConvertMesh h (some s) filename =
      .ok (WriteHeader h s ((filename ++ dotMat).length + 1) ++
        WriteMaterialName (filename ++ dotMat) ++
        s.mMeshes.flatMap (position_bytes h) ++ s.mMeshes.flatMap (normal_bytes h) ++
        s.mMeshes.flatMap (texcoord_bytes h) ++ u16_raw h (index_values h 0 s.mMeshes) ++
        WriteSubMeshes h s ++ WriteSubMeshMaterials s) := by
  simp only [ConvertMesh, WritePositions_ok, WriteNormals_ok h s hn, WriteTexCoord_ok,
    WriteIndices, WriteIndices_loop_ok h 0 s.mMeshes ht, bind, Except.bind, pure, Except.pure]

theorem ConvertMesh_assert (h : Endian) (s : aiScene) (filename : List Nat)
    (hn : ∀ m ∈ s.mMeshes, m.normalsReadable)
    (ht : ∃ m ∈ s.mMeshes, ∃ f ∈ m.mFaces, f.mIndices.length ≠ 3) :
    ConvertMesh h (some s) filename = .error .assertFailed := by
  simp only [ConvertMesh, WritePositions_ok, WriteNormals_ok h s hn, WriteTexCoord_ok,
    WriteIndices, WriteIndices_loop_error h 0 s.mMeshes ht, bind, Except.bind]

theorem ConvertMesh_header (h : Endian) (s : aiScene) (filename : List Nat)
    (hn : ∀ m ∈ s.mMeshes, m.normalsReadable) (ht : s.allTriangles) :
    ∃ bytes, ConvertMesh h (some s) filename = .ok bytes ∧
      bytes.take 8 = WriteHeader h s ((filename ++ dotMat).length + 1) ∧
      ∃ front, bytes = front ++ WriteSubMeshMaterials s := by
  refine ⟨_, ConvertMesh_ok h s filename hn ht, ?_, _, rfl⟩
  simp only [List.append_assoc]
  exact List.take_left' (WriteHeader_length h s _)

theorem WriteSubMeshMaterials_getElem (s : aiScene) (i : Nat) (m : aiMesh)
    (hm : s.mMeshes[i]? = some m) :
    (WriteSubMeshMaterials s)[i]? = some (materialIdx m) := by
  simp [WriteSubMeshMaterials, hm]

/-! ## Decoder sizes -/

theorem stream_read_length (junk : Nat → Nat) (inFile : List Nat) (n : Nat) :
    (stream_read junk inFile n).1.length = n := by
  unfold stream_read
  split
  · simp only [List.length_take]; omega
  · simp only [List.length_append, List.length_map, List.length_range]; omega

theorem f32_view_length (h : Endian) (k : Nat) (bs : List Nat) (hb : bs.length = 4 * k) :
    (f32_view h bs).length = k := by
  induction k generalizing bs with
  | zero =>
    cases bs with
    | nil => rfl
    | cons b bs => simp at hb
  | succ k ih =>
    match bs, hb with
    | b0 :: b1 :: b2 :: b3 :: rest, hb =>
      simp only [f32_view, List.length_cons]
      rw [ih rest (by simp only [List.length_cons] at hb; omega)]

theorem u16_view_length (h : Endian) (k : Nat) (bs : List Nat) (hb : bs.length = 2 * k) :
    (u16_view h bs).length = k := by
  induction k generalizing bs with
  | zero =>
    cases bs with
    | nil => rfl
    | cons b bs => simp at hb
  | succ k ih =>
    match bs, hb with
    | b0 :: b1 :: rest, hb =>
      simp only [u16_view, List.length_cons]
      rw [ih rest (by simp only [List.length_cons] at hb; omega)]

theorem vec3_loop_length (k : Nat) (fs : List Nat) (hf : fs.length = 3 * k) :
    (vec3_loop fs).length = k := by
  induction k generalizing fs with
  | zero =>
    cases fs with
    | nil => rfl
    | cons b bs => simp at hf
  | succ k ih =>
    match fs, hf with
    | x :: y :: z :: rest, hf =>
      simp only [vec3_loop, List.length_cons]
      rw [ih rest (by simp only [List.length_cons] at hf; omega)]

theorem vec2_loop_length (k : Nat) (fs : List Nat) (hf : fs.length = 2 * k) :
    (vec2_loop fs).length = k := by
  induction k generalizing fs with
  | zero =>
    cases fs with
    | nil => rfl
    | cons b bs => simp at hf
  | succ k ih =>
    match fs, hf with
    | x :: y :: rest, hf =>
      simp only [vec2_loop, List.length_cons]
      rw [ih rest (by simp only [List.length_cons] at hf; omega)]

theorem subMesh_loop_length (k : Nat) (fs : List Nat) (hf : fs.length = 2 * k) :
    (subMesh_loop fs).length = k := by
  induction k generalizing fs with
  | zero =>
    cases fs with
    | nil => rfl
    | cons b bs => simp at hf
  | succ k ih =>
    match fs, hf with
    | x :: y :: rest, hf =>
      simp only [subMesh_loop, List.length_cons]
      rw [ih rest (by simp only [List.length_cons] at hf; omega)]

theorem readVec3f_length (h : Endian) (junk : Nat → Nat) (inFile : List Nat) (n : Nat) :
    (readVec3f h junk inFile (3 * n)).1.length = n := by
  simp only [readVec3f]
  apply vec3_loop_length
  apply f32_view_length
  rw [stream_read_length]; omega

theorem readVec2f_length (h : Endian) (junk : Nat → Nat) (inFile : List Nat) (n : Nat) :
    (readVec2f h junk inFile (2 * n)).1.length = n := by
  simp only [readVec2f]
  apply vec2_loop_length
  apply f32_view_length
  rw [stream_read_length]; omega

theorem mesh_read_vertices_length (h : Endian) (junk : Nat → Nat → Nat) (inFile : List Nat)
    (out : Mesh) :
    (mesh_read h junk inFile out).vertices.length = (mesh_read h junk inFile out).n_vertices := by
  simp only [mesh_read]
  exact readVec3f_length h _ _ _

/-! ## Byte order of the stored values -/

theorem f32_mem_val (h : Endian) (b0 b1 b2 b3 : Nat) (h0 : b0 < 256) (h1 : b1 < 256)
    (h2 : b2 < 256) (h3 : b3 < 256) :
    f32_mem h (f32_val h (b0, b1, b2, b3)) = (b0, b1, b2, b3) := by
  cases h <;> simp only [f32_mem, f32_val, Prod.mk.injEq] <;> omega

theorem f32_val_mem (h : Endian) (p : Nat) : f32_val h (f32_mem h p) = p % 4294967296 := by
  cases h <;> simp only [f32_mem, f32_val] <;> omega

theorem f32_mem_lt (h : Endian) (p : Nat) :
    (f32_mem h p).1 < 256 ∧ (f32_mem h p).2.1 < 256 ∧ (f32_mem h p).2.2.1 < 256 ∧
      (f32_mem h p).2.2.2 < 256 := by
  cases h <;> simp only [f32_mem] <;> omega

theorem swap_f32_eq (h : Endian) (p : Nat) :
    swap_f32 h p =
      p % 256 * 16777216 + p / 256 % 256 * 65536 + p / 65536 % 256 * 256 +
        p / 16777216 % 256 := by
  cases h <;> simp only [swap_f32, f32_mem, f32_val] <;> omega

theorem swap_f32_lt (h : Endian) (p : Nat) : swap_f32 h p < 4294967296 := by
  rw [swap_f32_eq]; omega

theorem f32_mem_swap (h : Endian) (p : Nat) :
    f32_mem h (swap_f32 h p) =
      ((f32_mem h p).2.2.2, (f32_mem h p).2.2.1, (f32_mem h p).2.1, (f32_mem h p).1) := by
  obtain ⟨h0, h1, h2, h3⟩ := f32_mem_lt h p
  simp only [swap_f32]
  exact f32_mem_val h _ _ _ _ h3 h2 h1 h0

theorem swap_f32_swap_f32 (h : Endian) (p : Nat) (hp : p < 4294967296) :
    swap_f32 h (swap_f32 h p) = p := by
  have e : swap_f32 h (swap_f32 h p) = f32_val h (f32_mem h p) := by
    conv_lhs => rw [swap_f32, f32_mem_swap]
  rw [e, f32_val_mem, Nat.mod_eq_of_lt hp]

theorem u16_mem_val (h : Endian) (b0 b1 : Nat) (h0 : b0 < 256) (h1 : b1 < 256) :
    u16_mem h (u16_val h (b0, b1)) = (b0, b1) := by
  cases h <;> simp only [u16_mem, u16_val, Prod.mk.injEq] <;> omega

theorem u16_mem_lt (h : Endian) (x : Nat) : (u16_mem h x).1 < 256 ∧ (u16_mem h x).2 < 256 := by
  cases h <;> simp only [u16_mem] <;> omega

theorem u16_mem_swap (h : Endian) (x : Nat) :
    u16_mem h (swap_u16 h x) = ((u16_mem h x).2, (u16_mem h x).1) := by
  obtain ⟨h0, h1⟩ := u16_mem_lt h x
  simp only [swap_u16]
  exact u16_mem_val h _ _ h1 h0

theorem u16_raw_map_swap (h : Endian) (xs : List Nat) :
    u16_raw h (xs.map (swap_u16 h)) = xs.flatMap (stored_u16 h) := by
  induction xs with
  | nil => rfl
  | cons x xs ih =>
    simp only [List.map_cons, u16_raw, List.flatMap_cons, ih, u16_mem_swap]
    cases h <;> rfl

theorem f32_raw_map_swap (h : Endian) (xs : List Nat) :
    f32_raw h (xs.map (swap_f32 h)) = xs.flatMap (stored_f32 h) := by
  induction xs with
  | nil => rfl
  | cons x xs ih =>
    simp only [List.map_cons, f32_raw, List.flatMap_cons, ih, f32_mem_swap]
    cases h <;> rfl

theorem stored_u16_reverse (x : Nat) :
    stored_u16 .big x = (stored_u16 .little x).reverse := rfl

theorem stored_f32_reverse (p : Nat) :
    stored_f32 .big p = (stored_f32 .little p).reverse := rfl

theorem WriteHeader_stored (h : Endian) (s : aiScene) (len : Nat) :
    WriteHeader h s len =
      [s.totalVertices % 65536, s.totalFaces % 65536, s.mMeshes.length % 65536,
        len % 65536].flatMap (stored_u16 h) := by
  rw [← u16_raw_map_swap]
  simp only [WriteHeader, header_fields, List.map_cons, List.map_nil,
    sum_u16_eq 0 _ (by norm_num : 0 < 65536), Nat.zero_add, aiScene.totalVertices,
    aiScene.totalFaces]

theorem f32_raw_append (h : Endian) (xs ys : List Nat) :
    f32_raw h (xs ++ ys) = f32_raw h xs ++ f32_raw h ys := by
  induction xs with
  | nil => rfl
  | cons x xs ih => simp [f32_raw, ih]

theorem f32_raw_flatMap {α : Type} (h : Endian) (ms : List α) (g : α → List Nat) :
    ms.flatMap (fun m => f32_raw h (g m)) = f32_raw h (ms.flatMap g) := by
  induction ms with
  | nil => rfl
  | cons m ms ih => simp only [List.flatMap_cons, ih, f32_raw_append]

theorem CopyData_3f_stored (h : Endian) (vs : List aiVector3D) :
    f32_raw h (vs.flatMap (CopyData_3f h)) =
      vs.flatMap (fun v => v.xyz.flatMap (stored_f32 h)) := by
  have e : vs.flatMap (CopyData_3f h) = (vs.flatMap aiVector3D.xyz).map (swap_f32 h) := by
    rw [List.map_flatMap]; rfl
  rw [e, f32_raw_map_swap, List.flatMap_assoc]

theorem CopyData_2f_stored (h : Endian) (vs : List aiVector3D) :
    f32_raw h (vs.flatMap (CopyData_2f h)) =
      vs.flatMap (fun v => v.xy.flatMap (stored_f32 h)) := by
  have e : vs.flatMap (CopyData_2f h) = (vs.flatMap aiVector3D.xy).map (swap_f32 h) := by
    rw [List.map_flatMap]; rfl
  rw [e, f32_raw_map_swap, List.flatMap_assoc]

theorem index_values_stored (h : Endian) (acc : Nat) (ms : List aiMesh) :
    index_values h acc ms = (global_indices acc ms).map (swap_u16 h) := by
  induction ms generalizing acc with
  | nil => rfl
  | cons m ms ih =>
    simp only [index_values, global_indices, List.map_append, ih, List.map_flatMap,
      List.map_map]
    rfl

theorem subMesh_fields_stored (h : Endian) (start : Nat) (ms : List aiMesh) :
    subMesh_fields h start ms = (descriptor_fields start ms).map (swap_u16 h) := by
  induction ms generalizing start with
  | nil => rfl
  | cons m ms ih => simp only [subMesh_fields, descriptor_fields, List.map_cons, ih]

theorem ConvertMesh_stored (h : Endian) (s : aiScene) (filename : List Nat)
    (hn : ∀ m ∈ s.mMeshes, m.normalsReadable) (ht : s.allTriangles) :
    ConvertMesh h (some s) filename = .ok (stored_stream h s filename) := by
  have e1 : position_bytes h =
      fun m => m.mVertices.flatMap (fun v => v.xyz.flatMap (stored_f32 h)) := by
    funext m; rw [position_bytes, CopyData_3f_stored]
  have e2 : normal_bytes h =
      fun m => (m.mNormals.getD []).flatMap (fun v => v.xyz.flatMap (stored_f32 h)) := by
    funext m; rw [normal_bytes, CopyData_3f_stored]
  have e3 : texcoord_bytes h = fun m =>
      if m.HasTextureCoords0 then
        (m.mTextureCoords0.getD []).flatMap (fun v => v.xy.flatMap (stored_f32 h))
      else [] := by
    funext m; rw [texcoord_bytes, CopyData_2f_stored]
  rw [ConvertMesh_ok h s filename hn ht, stored_stream, WriteHeader_stored, WriteSubMeshes,
    subMesh_fields_stored, u16_raw_map_swap, index_values_stored, u16_raw_map_swap, e1, e2, e3]
  rfl

/-! ## Attribute blocks as the host reads them -/

theorem f32_view_raw (h : Endian) (xs : List Nat) :
    f32_view h (f32_raw h xs) = xs.map (· % 4294967296) := by
  induction xs with
  | nil => rfl
  | cons x xs ih =>
    have e := f32_val_mem h x
    simp only [f32_raw, f32_view, ih, List.map_cons]
    rw [← e]
    rfl

theorem f32_view_raw_of_lt (h : Endian) (xs : List Nat) (hx : ∀ x ∈ xs, x < 4294967296) :
    f32_view h (f32_raw h xs) = xs := by
  rw [f32_view_raw]
  conv_rhs => rw [← List.map_id xs]
  apply List.map_congr_left
  intro x hm
  simp [Nat.mod_eq_of_lt (hx x hm)]

theorem CopyData_3f_lt (h : Endian) (vs : List aiVector3D) :
    ∀ x ∈ vs.flatMap (CopyData_3f h), x < 4294967296 := by
  intro x hx
  simp only [List.mem_flatMap, CopyData_3f, List.mem_cons, List.mem_singleton,
    List.not_mem_nil, or_false] at hx
  obtain ⟨v, _, rfl | rfl | rfl⟩ := hx <;> exact swap_f32_lt _ _

theorem CopyData_2f_lt (h : Endian) (vs : List aiVector3D) :
    ∀ x ∈ vs.flatMap (CopyData_2f h), x < 4294967296 := by
  intro x hx
  simp only [List.mem_flatMap, CopyData_2f, List.mem_cons, List.mem_singleton,
    List.not_mem_nil, or_false] at hx
  obtain ⟨v, _, rfl | rfl⟩ := hx <;> exact swap_f32_lt _ _

theorem vec3_loop_CopyData (h : Endian) (vs : List aiVector3D) :
    vec3_loop (vs.flatMap (CopyData_3f h)) = vs.map (swapped3 h) := by
  induction vs with
  | nil => rfl
  | cons v vs ih =>
    simp only [List.flatMap_cons, CopyData_3f, List.cons_append, List.nil_append, vec3_loop,
      List.map_cons, swapped3]
    rw [← ih]; rfl

theorem vec2_loop_CopyData (h : Endian) (vs : List aiVector3D) :
    vec2_loop (vs.flatMap (CopyData_2f h)) = vs.map (swapped2 h) := by
  induction vs with
  | nil => rfl
  | cons v vs ih =>
    simp only [List.flatMap_cons, CopyData_2f, List.cons_append, List.nil_append, vec2_loop,
      List.map_cons, swapped2]
    rw [← ih]; rfl

theorem position_block_view (h : Endian) (s : aiScene) :
    vec3_loop (f32_view h (s.mMeshes.flatMap (position_bytes h))) =
      s.allVertices.map (swapped3 h) := by
  have e : s.mMeshes.flatMap (position_bytes h) =
      f32_raw h (s.allVertices.flatMap (CopyData_3f h)) := by
    rw [aiScene.allVertices, List.flatMap_assoc, ← f32_raw_flatMap]; rfl
  rw [e, f32_view_raw_of_lt h _ (CopyData_3f_lt h _), vec3_loop_CopyData]

theorem normal_block_view (h : Endian) (s : aiScene) :
    vec3_loop (f32_view h (s.mMeshes.flatMap (normal_bytes h))) =
      s.allNormals.map (swapped3 h) := by
  have e : s.mMeshes.flatMap (normal_bytes h) =
      f32_raw h (s.allNormals.flatMap (CopyData_3f h)) := by
    rw [aiScene.allNormals, List.flatMap_assoc, ← f32_raw_flatMap]; rfl
  rw [e, f32_view_raw_of_lt h _ (CopyData_3f_lt h _), vec3_loop_CopyData]

theorem texcoord_block_filter (h : Endian) (ms : List aiMesh) :
    ms.flatMap (texcoord_bytes h) =
      (ms.filter aiMesh.HasTextureCoords0).flatMap
        (fun m => f32_raw h ((m.mTextureCoords0.getD []).flatMap (CopyData_2f h))) := by
  induction ms with
  | nil => rfl
  | cons m ms ih =>
    by_cases ht : m.HasTextureCoords0 = true
    · simp only [List.flatMap_cons, List.filter_cons, ht, if_true, texcoord_bytes, ih]
    · simp only [List.flatMap_cons, List.filter_cons, ht, texcoord_bytes, ih]
      rfl

theorem texcoord_block_view (h : Endian) (s : aiScene) :
    vec2_loop (f32_view h (s.mMeshes.flatMap (texcoord_bytes h))) =
      s.allTexCoords.map (swapped2 h) := by
  have e : s.mMeshes.flatMap (texcoord_bytes h) =
      f32_raw h (s.allTexCoords.flatMap (CopyData_2f h)) := by
    rw [texcoord_block_filter, aiScene.allTexCoords, List.flatMap_assoc, ← f32_raw_flatMap]
  rw [e, f32_view_raw_of_lt h _ (CopyData_2f_lt h _), vec2_loop_CopyData]

theorem allVertices_length (s : aiScene) : s.allVertices.length = s.totalVertices := by
  unfold aiScene.allVertices aiScene.totalVertices
  generalize s.mMeshes = ms
  induction ms with
  | nil => rfl
  | cons m ms ih => simp only [List.flatMap_cons, List.length_append, ih, List.map_cons,
      List.sum_cons, aiMesh.mNumVertices]

theorem allNormals_length (s : aiScene) (hn : ∀ m ∈ s.mMeshes, m.normalsReadable) :
    s.allNormals.length = s.totalVertices := by
  unfold aiScene.allNormals aiScene.totalVertices
  generalize s.mMeshes = ms at hn
  induction ms with
  | nil => rfl
  | cons m ms ih =>
    have h2 := ih (fun m hm => hn m (List.mem_cons_of_mem _ hm))
    have h1 : (m.mNormals.getD []).length = m.mNumVertices := by
      cases hN : m.mNormals with
      | none =>
        have hv := hn m (List.mem_cons_self _ _) hN
        simp [aiMesh.mNumVertices, hv]
      | some ns => simp [m.normals_size ns hN, aiMesh.mNumVertices]
    simp only [List.flatMap_cons, List.length_append, h1, h2, List.map_cons, List.sum_cons]

theorem allTexCoords_length (s : aiScene) : s.allTexCoords.length = s.totalTexVertices := by
  unfold aiScene.allTexCoords aiScene.totalTexVertices
  have hf : ∀ m ∈ s.mMeshes.filter aiMesh.HasTextureCoords0, m.HasTextureCoords0 = true :=
    fun m hm => (List.mem_filter.mp hm).2
  generalize s.mMeshes.filter aiMesh.HasTextureCoords0 = ms at hf
  induction ms with
  | nil => rfl
  | cons m ms ih =>
    have h2 := ih (fun m hm => hf m (List.mem_cons_of_mem _ hm))
    have ht := hf m (List.mem_cons_self _ _)
    have h1 : (m.mTextureCoords0.getD []).length = m.mNumVertices := by
      cases hT : m.mTextureCoords0 with
      | none => simp [aiMesh.HasTextureCoords0, hT] at ht
      | some ts => simp [m.texcoords_size ts hT, aiMesh.mNumVertices]
    simp only [List.flatMap_cons, List.length_append, h1, h2, List.map_cons, List.sum_cons]

/-! ## Decoder: header and sizes -/

theorem mesh_read_counts (h : Endian) (junk : Nat → Nat → Nat) (inFile : List Nat)
    (out : Mesh) :
    (mesh_read h junk inFile out).n_vertices = (mesh_read_header h junk inFile).n_vertices ∧
    (mesh_read h junk inFile out).n_normals = (mesh_read_header h junk inFile).n_vertices ∧
    (mesh_read h junk inFile out).n_texcoord = (mesh_read_header h junk inFile).n_vertices ∧
    (mesh_read h junk inFile out).n_subMeshes = (mesh_read_header h junk inFile).n_subMeshes ∧
    (mesh_read h junk inFile out).n_tris = out.n_tris :=
  ⟨rfl, rfl, rfl, rfl, rfl⟩

theorem mesh_read_vertices_eq (h : Endian) (junk : Nat → Nat → Nat) (inFile : List Nat)
    (out : Mesh) :
    (mesh_read h junk inFile out).vertices =
      (readVec3f h (junk 1) (mesh_read_body junk inFile)
        (3 * (mesh_read_header h junk inFile).n_vertices)).1 :=
  rfl

theorem mesh_read_normals_length (h : Endian) (junk : Nat → Nat → Nat) (inFile : List Nat)
    (out : Mesh) :
    (mesh_read h junk inFile out).normals.length = (mesh_read h junk inFile out).n_vertices := by
  simp only [mesh_read]
  exact readVec3f_length h _ _ _

theorem mesh_read_texcoord_length (h : Endian) (junk : Nat → Nat → Nat) (inFile : List Nat)
    (out : Mesh) :
    (mesh_read h junk inFile out).texcoord.length = (mesh_read h junk inFile out).n_vertices := by
  simp only [mesh_read]
  exact readVec2f_length h _ _ _

theorem mesh_read_indices_length (h : Endian) (junk : Nat → Nat → Nat) (inFile : List Nat)
    (out : Mesh) :
    (mesh_read h junk inFile out).indices.length =
      3 * (mesh_read_header h junk inFile).n_faces := by
  simp only [mesh_read, mesh_read_header]
  apply u16_view_length
  rw [stream_read_length]; omega

theorem mesh_read_subMeshes_length (h : Endian) (junk : Nat → Nat → Nat) (inFile : List Nat)
    (out : Mesh) :
    (mesh_read h junk inFile out).subMeshes.length =
      (mesh_read h junk inFile out).n_subMeshes := by
  simp only [mesh_read]
  apply subMesh_loop_length
  apply u16_view_length
  rw [stream_read_length]; omega

theorem mesh_read_header_cons (h : Endian) (junk : Nat → Nat → Nat)
    (b0 b1 b2 b3 b4 b5 : Nat) (rest : List Nat) :
    mesh_read_header h junk (b0 :: b1 :: b2 :: b3 :: b4 :: b5 :: rest) =
      ⟨u16_val h (b0, b1), u16_val h (b2, b3), u16_val h (b4, b5)⟩ ∧
    mesh_read_body junk (b0 :: b1 :: b2 :: b3 :: b4 :: b5 :: rest) = rest := by
  have hl : 6 ≤ (b0 :: b1 :: b2 :: b3 :: b4 :: b5 :: rest).length := by
    simp only [List.length_cons]; omega
  constructor
  · simp only [mesh_read_header, stream_read, if_pos hl]
    rfl
  · simp only [mesh_read_body, stream_read, if_pos hl]
    rfl

/-! ## Encoding without normals -/

theorem WriteNormals_nullDeref (h : Endian) (ms : List aiMesh)
    (hm : ∃ m ∈ ms, m.mNormals = none ∧ m.mVertices ≠ []) :
    forMeshes (fun mesh => WriteData h mesh.mNormals mesh.mNumVertices 3 (CopyData_3f h)) ms =
      .error .nullDeref := by
  induction ms with
  | nil => simp at hm
  | cons m ms ih =>
    cases hN : m.mNormals with
    | none =>
      by_cases hv : m.mVertices = []
      · have h2 := ih (by
          obtain ⟨g, hg, hg1, hg2⟩ := hm
          rcases List.mem_cons.mp hg with rfl | hg
          · exact absurd hv hg2
          · exact ⟨g, hg, hg1, hg2⟩)
        have h1 : WriteData h m.mNormals m.mNumVertices 3 (CopyData_3f h) = .ok [] := by
          simp [WriteData, hN, aiMesh.mNumVertices, hv]
        simp only [forMeshes, h1, h2]
      · have hlen : m.mVertices.length ≠ 0 := by
          intro h0; exact hv (List.length_eq_zero.mp h0)
        have h1 : WriteData h m.mNormals m.mNumVertices 3 (CopyData_3f h) =
            .error .nullDeref := by
          simp [WriteData, hN, aiMesh.mNumVertices, hlen]
        simp only [forMeshes, h1]
    | some ns =>
      have h1 := WriteData_some h ns m.mNumVertices (m.normals_size ns hN) 3 _
        (CopyData_3f_flatMap_length h ns)
      have h2 := ih (by
        obtain ⟨g, hg, hg1, hg2⟩ := hm
        rcases List.mem_cons.mp hg with rfl | hg
        · rw [hN] at hg1; cases hg1
        · exact ⟨g, hg, hg1, hg2⟩)
      rw [← hN] at h1
      simp only [forMeshes, h1, h2]

theorem ConvertMesh_nullDeref (h : Endian) (s : aiScene) (filename : List Nat)
    (hm : ∃ m ∈ s.mMeshes, m.mNormals = none ∧ m.mVertices ≠ []) :
    ConvertMesh h (some s) filename = .error .nullDeref := by
  simp only [ConvertMesh, WritePositions_ok, WriteNormals, WriteNormals_nullDeref h _ hm,
    bind, Except.bind]

/-! ## Decoder on a truncated stream -/

theorem stream_read_short (junk : Nat → Nat) (inFile : List Nat) (n : Nat)
    (hn : inFile.length < n) :
    stream_read junk inFile n =
      (inFile ++ (List.range (n - inFile.length)).map (fun k => junk (inFile.length + k)), []) := by
  simp only [stream_read, if_neg (Nat.not_le.mpr hn)]

theorem stream_read_nil (junk : Nat → Nat) (n : Nat) :
    stream_read junk [] n = ((List.range n).map junk, []) := by
  cases n with
  | zero => rfl
  | succ n =>
    rw [stream_read_short junk [] (n + 1) (by simp)]
    simp

theorem mesh_read_truncated (h : Endian) (junk : Nat → Nat → Nat) (out : Mesh)
    (b0 b1 b2 b3 b4 b5 : Nat) (body : List Nat)
    (hshort : body.length < 12 * u16_val h (b0, b1)) :
    (mesh_read h junk (b0 :: b1 :: b2 :: b3 :: b4 :: b5 :: body) out).vertices =
      vec3_loop (f32_view h (body ++
        (List.range (12 * u16_val h (b0, b1) - body.length)).map
          (fun k => junk 1 (body.length + k)))) ∧
    (mesh_read h junk (b0 :: b1 :: b2 :: b3 :: b4 :: b5 :: body) out).normals =
      vec3_loop (f32_view h ((List.range (12 * u16_val h (b0, b1))).map (junk 2))) ∧
    (mesh_read h junk (b0 :: b1 :: b2 :: b3 :: b4 :: b5 :: body) out).texcoord =
      vec2_loop (f32_view h ((List.range (8 * u16_val h (b0, b1))).map (junk 3))) ∧
    (mesh_read h junk (b0 :: b1 :: b2 :: b3 :: b4 :: b5 :: body) out).indices =
      u16_view h ((List.range (6 * u16_val h (b2, b3))).map (junk 4)) ∧
    (mesh_read h junk (b0 :: b1 :: b2 :: b3 :: b4 :: b5 :: body) out).subMeshes =
      subMesh_loop (u16_view h ((List.range (4 * u16_val h (b4, b5))).map (junk 5))) := by
  have hl : 6 ≤ (b0 :: b1 :: b2 :: b3 :: b4 :: b5 :: body).length := by
    simp only [List.length_cons]; omega
  have hd : stream_read (junk 0) (b0 :: b1 :: b2 :: b3 :: b4 :: b5 :: body) 6 =
      ([b0, b1, b2, b3, b4, b5], body) := by
    simp only [stream_read, if_pos hl]; rfl
  have e1 : 3 * u16_val h (b0, b1) * 4 = 12 * u16_val h (b0, b1) := by omega
  have e2 : 2 * u16_val h (b0, b1) * 4 = 8 * u16_val h (b0, b1) := by omega
  have e3 : 3 * u16_val h (b2, b3) * 2 = 6 * u16_val h (b2, b3) := by omega
  have e4 : 2 * u16_val h (b4, b5) * 2 = 4 * u16_val h (b4, b5) := by omega
  simp only [mesh_read, hd, u16_view, List.getD_cons_zero, List.getD_cons_succ, readVec3f,
    readVec2f, e1, e2, e3, e4, stream_read_short (junk 1) body _ hshort, stream_read_nil]
  exact ⟨trivial, trivial, trivial, trivial, trivial⟩

/-! ## Material sidecar -/

theorem to_char_small (sc : Bool) (n : Int) (h0 : 0 ≤ n) (h1 : n ≤ 127) : to_char sc n = n := by
  cases sc <;> simp only [to_char, if_true, Bool.false_eq_true, if_false] <;> omega

theorem to_char_succ (sc : Bool) (n : Nat) (h1 : n + 1 ≤ 127) :
    to_char sc (to_char sc (n : Int) + 1) = (n : Int) + 1 := by
  rw [to_char_small sc n (by omega) (by omega), to_char_small sc _ (by omega) (by omega)]

theorem to_char_pred (sc : Bool) (n : Nat) (h1 : 1 ≤ n) (h2 : n - 1 ≤ 127) :
    to_char sc (to_char sc (n : Int) - 1) = (n : Int) - 1 := by
  cases sc <;> simp only [to_char, if_true, Bool.false_eq_true, if_false] <;> omega

theorem to_char_pred_byte (sc : Bool) (n : Nat) (h1 : 1 ≤ n) :
    char_byte (to_char sc (to_char sc (n : Int) - 1)) = (n - 1) % 256 := by
  cases sc <;> simp only [char_byte, to_char, if_true, Bool.false_eq_true, if_false] <;> omega

theorem to_char_pred_le (sc : Bool) (n : Nat) (h1 : 1 ≤ n) :
    (to_char sc (to_char sc (n : Int) - 1)).toNat ≤ n - 1 := by
  cases sc <;> simp only [to_char, if_true, Bool.false_eq_true, if_false] <;> omega

theorem write_chars_all (out s : List Nat) :
    write_chars ⟨out, true⟩ (s ++ [0]) ((s.length : Int) + 1) = .ok ⟨out ++ (s ++ [0]), true⟩ := by
  have hlen : ((s ++ [0]).length : Int) = (s.length : Int) + 1 := by simp
  have h1 : ¬ ((s.length : Int) + 1 < 0) := by omega
  have h3 : ¬ (((s ++ [0]).length : Int) < (s.length : Int) + 1) := by
    rw [hlen]; omega
  have h2 : ((s.length : Int) + 1).toNat = (s ++ [0]).length := by
    simp only [List.length_append, List.length_cons, List.length_nil]; omega
  simp only [write_chars, Bool.true_eq_false, if_false, if_neg h1, if_neg h3, h2,
    List.take_length]

theorem write_chars_one (out : List Nat) (b : Nat) :
    write_chars ⟨out, true⟩ [b] 1 = .ok ⟨out ++ [b], true⟩ := rfl

theorem write_chars_two (out : List Nat) (a b : Nat) :
    write_chars ⟨out, true⟩ [a, b] 2 = .ok ⟨out ++ [a, b], true⟩ := rfl

theorem diffuse_entry_ok (sc : Bool) (m : aiMaterial) (out : List Nat)
    (hm : ∀ t, m.diffuse = some t → t.length + 1 ≤ 127) :
    diffuse_entry sc m ⟨out, true⟩ = .ok ⟨out ++ layout_entry m, true⟩ := by
  cases hd : m.diffuse with
  | none => simp only [diffuse_entry, layout_entry, hd, List.append_nil]
  | some t =>
    have hl := hm t hd
    have hb : char_byte ((t.length : Int) + 1) = t.length + 1 := by
      simp only [char_byte]; omega
    simp only [diffuse_entry, layout_entry, hd, to_char_succ sc t.length hl, write_chars_one,
      write_chars_all, hb, List.append_assoc]

theorem WriteMaterial_loop_ok (sc : Bool) (pre ms post : List aiMaterial) (out : List Nat)
    (hm : ∀ m ∈ ms, ∀ t, m.diffuse = some t → t.length + 1 ≤ 127) :
    WriteMaterial_loop sc (pre ++ ms ++ post) pre.length ms.length ⟨out, true⟩ =
      .ok ⟨out ++ ms.flatMap layout_entry, true⟩ := by
  induction ms generalizing pre out with
  | nil => simp only [List.length_nil, WriteMaterial_loop, List.flatMap_nil, List.append_nil]
  | cons m ms ih =>
    have h1 : (pre ++ m :: ms ++ post)[pre.length]? = some m := by
      rw [List.append_assoc, List.getElem?_append_right (Nat.le_refl _)]
      simp
    have h2 := ih (pre ++ [m]) (out ++ layout_entry m)
      (fun x hx => hm x (List.mem_cons_of_mem _ hx))
    have h3 : pre ++ [m] ++ ms ++ post = pre ++ m :: ms ++ post := by simp
    rw [h3, List.length_append, List.length_singleton] at h2
    simp only [List.length_cons, WriteMaterial_loop, h1,
      diffuse_entry_ok sc m out (hm m (List.mem_cons_self _ _)), h2, List.flatMap_cons]
    rw [List.append_assoc]

theorem WriteMaterial_closed (sc : Bool) (mats : List aiMaterial) (filename : List Nat)
    (hM : 1 ≤ mats.length) (hname : (filename ++ dotMat).length + 1 ≤ 127)
    (htex : ∀ m ∈ mats.drop 1, ∀ t, m.diffuse = some t → t.length + 1 ≤ 127) :
    WriteMaterial sc mats filename =
      .ok ([(filename ++ dotMat).length + 1, (mats.length - 1) % 256] ++
        ((filename ++ dotMat) ++ [0]) ++
        ((mats.drop 1).take
          (to_char sc (to_char sc (mats.length : Int) - 1)).toNat).flatMap layout_entry) := by
  have hk := to_char_pred_le sc mats.length hM
  generalize hkk : (to_char sc (to_char sc (mats.length : Int) - 1)).toNat = k at hk
  have hsplit : mats = mats.take 1 ++ (mats.drop 1).take k ++ (mats.drop 1).drop k := by
    rw [List.append_assoc, List.take_append_drop, List.take_append_drop]
  have hpre : (mats.take 1).length = 1 := by
    rw [List.length_take]; omega
  have hms : ((mats.drop 1).take k).length = k := by
    rw [List.length_take, List.length_drop]; omega
  have hloop := fun out => WriteMaterial_loop_ok sc (mats.take 1) ((mats.drop 1).take k)
    ((mats.drop 1).drop k) out (fun m hm => htex m (List.mem_of_mem_take hm))
  rw [← hsplit, hpre, hms] at hloop
  have hb : char_byte (((filename ++ dotMat).length : Int) + 1) =
      (filename ++ dotMat).length + 1 := by
    simp only [char_byte]; omega
  simp only [WriteMaterial, to_char_succ sc _ hname, write_chars_two, write_chars_all, hkk,
    hloop, hb, to_char_pred_byte sc mats.length hM, List.nil_append]

theorem stream_read_append (junk : Nat → Nat) (xs rest : List Nat) :
    stream_read junk (xs ++ rest) xs.length = (xs, rest) := by
  have hl : xs.length ≤ (xs ++ rest).length := by simp
  simp only [stream_read, if_pos hl, List.take_left', List.drop_left']

theorem read_chars_exact (junk : Nat → Nat) (size : Nat) (xs rest : List Nat)
    (hs : xs.length ≤ size) :
    read_chars junk size ⟨xs ++ rest, true⟩ (xs.length : Int) = .ok (xs, ⟨rest, true⟩) := by
  have h1 : ¬ ((true = false) ∨ (xs.length : Int) < 0) := by
    intro h; rcases h with h | h
    · exact absurd h (by decide)
    · omega
  have h3 : ¬ ((size : Int) < (xs.length : Int)) := by omega
  have hl : xs.length ≤ (xs ++ rest).length := by simp
  simp only [read_chars, if_neg h1, if_neg h3, Int.toNat_ofNat, stream_read_append, hl,
    decide_True]

theorem read_chars_all (junk : Nat → Nat) (s rest : List Nat) (hs : s.length + 1 ≤ 256) :
    read_chars junk 256 ⟨s ++ [0] ++ rest, true⟩ ((s.length : Int) + 1) =
      .ok (s ++ [0], ⟨rest, true⟩) := by
  have h := read_chars_exact junk 256 (s ++ [0]) rest (by simpa using hs)
  have hl : (((s ++ [0]).length : Nat) : Int) = (s.length : Int) + 1 := by simp
  rw [hl] at h
  exact h

theorem ReadMaterial_loop_ok (sc : Bool) (junk : Nat → Nat → Nat) (ts : List (List Nat))
    (rest : List Nat) (ht : ∀ t ∈ ts, t.length + 1 ≤ 127) :
    ReadMaterial_loop sc junk ts.length
        ⟨ts.flatMap (fun t => [t.length + 1] ++ t ++ [0]) ++ rest, true⟩ =
      .ok (ts.map (fun t => t ++ [0]), ⟨rest, true⟩) := by
  induction ts with
  | nil => rfl
  | cons t ts ih =>
    have h2 := ih (fun x hx => ht x (List.mem_cons_of_mem _ hx))
    have hl := ht t (List.mem_cons_self _ _)
    have hr : read_chars (junk 2) 1
        ⟨(t.length + 1) :: (t ++ [0] ++
          (ts.flatMap (fun t => [t.length + 1] ++ t ++ [0]) ++ rest)), true⟩ 1 =
        .ok ([t.length + 1], ⟨t ++ [0] ++
          (ts.flatMap (fun t => [t.length + 1] ++ t ++ [0]) ++ rest), true⟩) :=
      read_chars_exact (junk 2) 1 [t.length + 1] _ (by simp)
    have hc : to_char sc ((t.length + 1 : Nat) : Int) = (t.length : Int) + 1 := by
      rw [to_char_small sc _ (by omega) (by omega)]; omega
    simp only [List.flatMap_cons, List.length_cons, ReadMaterial_loop, List.append_assoc,
      List.singleton_append, List.cons_append, List.nil_append, List.map_cons] at hr ⊢
    simp only [hr, List.getD_cons_zero, hc]
    have hrd := read_chars_all (junk 3) t
      (ts.flatMap (fun t => [t.length + 1] ++ t ++ [0]) ++ rest) (by omega)
    simp only [List.append_assoc, List.singleton_append, List.cons_append,
      List.nil_append] at hrd h2
    simp only [hrd, h2]

theorem WriteMaterial_within (sc : Bool) (mats : List aiMaterial) (filename : List Nat)
    (hM : 1 ≤ mats.length) (hn : mats.length - 1 ≤ 127)
    (hname : (filename ++ dotMat).length + 1 ≤ 127)
    (htex : ∀ m ∈ mats.drop 1, ∀ t, m.diffuse = some t → t.length + 1 ≤ 127) :
    WriteMaterial sc mats filename =
      .ok ([(filename ++ dotMat).length + 1, mats.length - 1] ++
        ((filename ++ dotMat) ++ [0]) ++ (mats.drop 1).flatMap layout_entry) := by
  have hk : (to_char sc (to_char sc (mats.length : Int) - 1)).toNat = mats.length - 1 := by
    rw [to_char_pred sc mats.length hM hn]; omega
  rw [WriteMaterial_closed sc mats filename hM hname htex, hk,
    List.take_of_length_le (by rw [List.length_drop]), Nat.mod_eq_of_lt (by omega)]

theorem layout_entry_textures (ts : List (List Nat)) :
    (ts.map (fun t => (⟨some t⟩ : aiMaterial))).flatMap layout_entry =
      ts.flatMap (fun t => [t.length + 1] ++ t ++ [0]) := by
  induction ts with
  | nil => rfl
  | cons t ts ih => simp only [List.map_cons, List.flatMap_cons, ih, layout_entry]

theorem ReadMaterial_ok (sc : Bool) (junk : Nat → Nat → Nat) (name : List Nat)
    (ts : List (List Nat)) (hname : name.length + 1 ≤ 127) (hn : ts.length ≤ 127)
    (ht : ∀ t ∈ ts, t.length + 1 ≤ 127) :
    ReadMaterial sc junk ([name.length + 1, ts.length] ++ (name ++ [0]) ++
        ts.flatMap (fun t => [t.length + 1] ++ t ++ [0])) =
      .ok ⟨name ++ [0], ts.length, ts.map (fun t => t ++ [0]), []⟩ := by
  have hr : read_chars (junk 0) 2 ⟨[name.length + 1, ts.length] ++ ((name ++ [0]) ++
      ts.flatMap (fun t => [t.length + 1] ++ t ++ [0])), true⟩ 2 =
      .ok ([name.length + 1, ts.length], ⟨(name ++ [0]) ++
        ts.flatMap (fun t => [t.length + 1] ++ t ++ [0]), true⟩) :=
    read_chars_exact (junk 0) 2 [name.length + 1, ts.length] _ (by simp)
  have hc1 : to_char sc ((name.length + 1 : Nat) : Int) = (name.length : Int) + 1 := by
    rw [to_char_small sc _ (by omega) (by omega)]; omega
  have hc2 : to_char sc ((ts.length : Nat) : Int) = (ts.length : Int) :=
    to_char_small sc _ (by omega) (by omega)
  have hrd := read_chars_all (junk 1) name (ts.flatMap (fun t => [t.length + 1] ++ t ++ [0]))
    (by omega)
  have hloop := ReadMaterial_loop_ok sc junk ts [] ht
  rw [List.append_nil] at hloop
  rw [List.append_assoc]
  simp only [ReadMaterial, hr, List.getD_cons_zero, List.getD_cons_succ, hc1, hc2, hrd,
    Int.toNat_ofNat, hloop]

theorem texture_limit (ms : List aiMaterial)
    (htex : ∀ m ∈ ms, (m.diffuse.getD []).length ≤ 126) :
    ∀ m ∈ ms, ∀ t, m.diffuse = some t → t.length + 1 ≤ 127 := by
  intro m hm t ht
  have := htex m hm
  rw [ht, Option.getD_some] at this
  omega

/-! ## OBJ face triplets -/

theorem face_loop_stuck (r : ObjReader) (fuel : Nat) (face : List Vertex) :
    face_loop r fuel [13] face = none := by
  induction fuel generalizing face with
  | zero => rfl
  | succ fuel ih =>
    have hstep : face_step r ([13], face) = ([13], face ++ [⟨0, -1, -1⟩]) := rfl
    simp only [face_loop, hstep, List.cons_ne_nil, if_false]
    exact ih _

theorem face_loop_cr (r : ObjReader) (fuel : Nat) :
    face_loop r fuel [49, 32, 50, 32, 51, 13] [] = none := by
  match fuel with
  | 0 => rfl
  | 1 => rfl
  | 2 => rfl
  | n + 3 =>
    have h1 : face_step r ([49, 32, 50, 32, 51, 13], []) =
        ([50, 32, 51, 13], [⟨0, -1, -1⟩]) := rfl
    have h2 : face_step r ([50, 32, 51, 13], [⟨0, -1, -1⟩]) =
        ([51, 13], [⟨0, -1, -1⟩, ⟨1, -1, -1⟩]) := rfl
    have h3 : face_step r ([51, 13], [⟨0, -1, -1⟩, ⟨1, -1, -1⟩]) =
        ([13], [⟨0, -1, -1⟩, ⟨1, -1, -1⟩, ⟨2, -1, -1⟩]) := rfl
    simp only [face_loop, List.cons_ne_nil, if_false, h1, h2, h3]
    exact face_loop_stuck r n _

/-! ## The face loop on lines without carriage return -/

theorem strcspn_pos (c : Nat) (tl reject : List Nat) (hc : c ∉ reject) :
    1 ≤ strcspn (c :: tl) reject := by
  have h1c : reject.contains c = false := by simp [hc]
  simp only [strcspn, List.takeWhile_cons, h1c, Bool.not_false, if_true, List.length_cons]
  omega

theorem getInt3_advances (r : ObjReader) (c : Nat) (tl : List Nat)
    (hc : c ≠ 32 ∧ c ≠ 9 ∧ c ≠ 13) :
    (r.getInt3 (c :: tl)).2.length < (c :: tl).length := by
  by_cases h47 : c = 47
  · subst h47
    have h0 : strcspn (47 :: tl) [47, 32, 9, 13] = 0 := by
      simp [strcspn, List.takeWhile_cons]
    unfold ObjReader.getInt3
    dsimp only []
    simp only [h0, List.drop_zero, List.head?_cons, ne_eq,
      not_true_eq_false, if_false, List.drop_succ_cons]
    split_ifs with h2 h3
    · simp only [List.length_drop, List.length_cons]; omega
    · simp only [List.length_drop, List.length_cons]; omega
    · simp only [List.length_drop, List.length_cons]; omega
  · have hpos := strcspn_pos c tl [47, 32, 9, 13] (by
      simp only [List.mem_cons, List.mem_singleton, List.not_mem_nil, or_false]; omega)
    simp only [ObjReader.getInt3]
    split_ifs with h1 h2 h3
    · simp only [List.length_drop, List.length_cons] at hpos ⊢; omega
    · simp only [List.length_drop, List.length_cons] at hpos ⊢; omega
    · simp only [List.length_drop, List.length_cons] at hpos ⊢; omega
    · simp only [List.length_drop, List.length_cons] at hpos ⊢; omega

theorem getInt3_mem (r : ObjReader) (t : List Nat) :
    ∀ x ∈ (r.getInt3 t).2, x ∈ t := by
  intro x hx
  simp only [ObjReader.getInt3] at hx
  split_ifs at hx <;>
    exact List.mem_of_mem_drop
      (by first
        | exact hx
        | exact List.mem_of_mem_drop hx
        | exact List.mem_of_mem_drop (List.mem_of_mem_drop hx)
        | exact List.mem_of_mem_drop (List.mem_of_mem_drop (List.mem_of_mem_drop hx))
        | exact List.mem_of_mem_drop (List.mem_of_mem_drop (List.mem_of_mem_drop
            (List.mem_of_mem_drop hx))))

theorem parseSepOpt_head (t : List Nat) :
    (parseSepOpt t).head? ≠ some 32 ∧ (parseSepOpt t).head? ≠ some 9 := by
  induction t with
  | nil => simp [parseSepOpt]
  | cons c tl ih =>
    by_cases hc : c = 32 ∨ c = 9
    · have hcc : [32, 9].contains c = true := by
        rcases hc with rfl | rfl <;> decide
      have e : parseSepOpt (c :: tl) = parseSepOpt tl := by
        simp only [parseSepOpt, strspn, List.takeWhile_cons, hcc, if_true, List.length_cons,
          List.drop_succ_cons]
      rw [e]; exact ih
    · have hcc : [32, 9].contains c = false := by
        simp only [List.contains_cons, List.contains_nil, Bool.or_false, Bool.or_eq_false_iff,
          beq_eq_false_iff_ne]
        push_neg at hc
        exact ⟨hc.1, hc.2⟩
      have e : parseSepOpt (c :: tl) = c :: tl := by
        simp only [parseSepOpt, strspn, List.takeWhile_cons, hcc, Bool.false_eq_true, if_false,
          List.length_nil, List.drop_zero]
      rw [e]
      push_neg at hc
      simp only [List.head?_cons, ne_eq, Option.some.injEq]
      exact ⟨hc.1, hc.2⟩

theorem parseSepOpt_le (t : List Nat) : (parseSepOpt t).length ≤ t.length := by
  simp only [parseSepOpt, List.length_drop]; omega

theorem face_loop_terminates (r : ObjReader) (fuel : Nat) (token : List Nat)
    (face : List Vertex) (hfuel : token.length ≤ fuel) (hcr : 13 ∉ token)
    (hhead : token.head? ≠ some 32 ∧ token.head? ≠ some 9) :
    ∃ result, face_loop r fuel token face = some result := by
  induction fuel generalizing token face with
  | zero =>
    have : token = [] := List.length_eq_zero.mp (Nat.le_zero.mp hfuel)
    subst this
    exact ⟨face, rfl⟩
  | succ fuel ih =>
    cases token with
    | nil => exact ⟨face, rfl⟩
    | cons c tl =>
      have hc : c ≠ 32 ∧ c ≠ 9 ∧ c ≠ 13 := by
        refine ⟨?_, ?_, ?_⟩
        · intro h; exact hhead.1 (by simp [h])
        · intro h; exact hhead.2 (by simp [h])
        · intro h; exact hcr (by simp [h])
      have hadv := getInt3_advances r c tl hc
      have hle := parseSepOpt_le (r.getInt3 (c :: tl)).2
      simp only [face_loop, List.cons_ne_nil, if_false, face_step]
      apply ih
      · simp only [List.length_cons] at hfuel hadv; omega
      · intro hm
        exact hcr (getInt3_mem r _ 13 (List.mem_of_mem_drop hm))
      · exact parseSepOpt_head _

theorem face_branch_terminates (r : ObjReader) (c : Nat) (tl : List Nat)
    (hc : c = 32 ∨ c = 9) (hcr : 13 ∉ tl) :
    ∃ result, face_branch r (102 :: c :: tl).length (102 :: c :: tl) = some result := by
  have hcc : [32, 9].contains c = true := by
    rcases hc with rfl | rfl <;> decide
  have hsep : strspn (c :: tl) [32, 9] ≠ 0 := by
    simp only [strspn, List.takeWhile_cons, hcc, if_true, List.length_cons]
    omega
  have hp : parseSep (c :: tl) = some (parseSepOpt (c :: tl)) := by
    simp only [parseSep, if_neg hsep, parseSepOpt]
  have hle := parseSepOpt_le (c :: tl)
  simp only [face_branch, List.drop_succ_cons, List.drop_zero, hp]
  apply face_loop_terminates
  · simp only [List.length_cons] at hle ⊢; omega
  · intro hm
    have hm2 : 13 ∈ c :: tl := List.mem_of_mem_drop hm
    rcases List.mem_cons.mp hm2 with h13 | h13
    · rcases hc with rfl | rfl <;> omega
    · exact hcr h13
  · exact parseSepOpt_head _

/-! ## Host dependence of the stream, and the descriptor block in values -/

theorem stored_stream_head (h : Endian) (s : aiScene) (filename : List Nat) :
    (stored_stream h s filename).head? = (stored_u16 h (s.totalVertices % 65536)).head? := by
  cases h <;> simp [stored_stream, stored_u16, List.flatMap_cons]

set_option maxRecDepth 200000 in
/-- C1 (refuted on the code): decoding what the encoder wrote does not give back
the scene.  For the unit-square scene, each pair of writer and reader byte
orders and whatever the buffers and the mesh held before, `ConvertMesh`
succeeds and the vertices `mesh_read` returns differ from the positions of the
scene: the reader takes a 6-byte header and starts the position block there,
inside the 8-byte header and material name written by the encoder (first
coordinate read: 549487 or 1868693512 instead of 0), and with equal byte orders
it takes the vertex count 4 for 1024. -/
theorem C1_roundtrip_fails :
    ∀ (hw hr : Endian) (junk : Nat → Nat → Nat) (out : Mesh), ∃ bytes,
      ConvertMesh hw (some quadScene) boxName = .ok bytes ∧
      (mesh_read hr junk bytes out).vertices ≠ quadScene.positions := by
  intro hw hr junk out
  cases hw <;> cases hr <;> refine ⟨_, rfl, ?_⟩ <;> intro heq
  · have h1 := congrArg List.length heq
    rw [mesh_read_vertices_length] at h1
    change 1024 = 4 at h1
    exact absurd h1 (by decide)
  · have h1 := congrArg (fun l => (List.head? l).map Vec3.x) heq
    change some 549487 = some 0 at h1
    exact absurd h1 (by decide)
  · have h1 := congrArg (fun l => (List.head? l).map Vec3.x) heq
    change some 1868693512 = some 0 at h1
    exact absurd h1 (by decide)
  · have h1 := congrArg List.length heq
    rw [mesh_read_vertices_length] at h1
    change 1024 = 4 at h1
    exact absurd h1 (by decide)

/-- C2: within the 16-bit ceilings `WriteHeader` writes 8 bytes, four 16-bit
fields which after undoing `swap_u16` are the vertex count, the triangle count,
the submesh count and the name length plus one, in that order. -/
theorem C2_header_content (h : Endian) (s : aiScene) (L : Nat)
    (hV : s.totalVertices ≤ 65535) (hT : s.totalFaces ≤ 65535)
    (hS : s.mMeshes.length ≤ 65535) (hL : L + 1 ≤ 65535) :
    (WriteHeader h s (L + 1)).length = 8 ∧
    (u16_view h (WriteHeader h s (L + 1))).map (swap_u16 h) =
      [s.totalVertices, s.totalFaces, s.mMeshes.length, L + 1] := by
  refine ⟨WriteHeader_length h s _, ?_⟩
  rw [header_fields_view, Nat.mod_eq_of_lt (by omega : s.totalVertices < 65536),
    Nat.mod_eq_of_lt (by omega : s.totalFaces < 65536),
    Nat.mod_eq_of_lt (by omega : s.mMeshes.length < 65536),
    Nat.mod_eq_of_lt (by omega : L + 1 < 65536)]

/-- C2 at the one-submesh scenario with a 7-character material name: the header
decodes to (4, 2, 1, 8). -/
theorem C2_header_content_witness :
    (WriteHeader .little quadScene 8).length = 8 ∧
    (u16_view .little (WriteHeader .little quadScene 8)).map (swap_u16 .little) =
      [4, 2, 1, 8] :=
  C2_header_content .little quadScene 7 (by decide) (by decide) (by decide) (by decide)

/-- C3 (refuted as stated): a scene within the 16-bit ceilings in which every
submesh has normals, but with a face of two indices, produces no stream:
`ConvertMesh` stops at the assertion of `WriteIndices`. -/
theorem C3_layout_counterexample :
    lineScene.totalVertices ≤ 65535 ∧ lineScene.totalFaces ≤ 65535 ∧
    lineScene.mMeshes.length ≤ 65535 ∧ (boxName ++ dotMat).length + 1 ≤ 65535 ∧
    (∀ m ∈ lineScene.mMeshes, m.HasNormals = true) ∧
    ConvertMesh .little (some lineScene) boxName = .error .assertFailed :=
  ⟨by decide, by decide, by decide, by decide, by decide, rfl⟩

/-- C3 (amended): for every scene within the 16-bit ceilings in which every
submesh has normals and every face has exactly 3 indices, the output of
`ConvertMesh` is the concatenation, in this order, of the 8-byte header, the
material name and a NUL (`L + 1` bytes, the value of the header's fourth field,
the first three being `V`, `T` and `S`),
the position block (`12 * V` bytes), the normal block (`12 * V`), the texcoord
block (`8 * Vt`), the index block (`6 * T`), the descriptor block (`4 * S`) and
the material block (`S`); its length is `8 + (L+1) + 24*V + 8*Vt + 6*T + 5*S`. -/
theorem C3_stream_layout (h : Endian) (s : aiScene) (filename : List Nat)
    (hV : s.totalVertices ≤ 65535) (hT : s.totalFaces ≤ 65535)
    (hS : s.mMeshes.length ≤ 65535) (hL : (filename ++ dotMat).length + 1 ≤ 65535)
    (hn : ∀ m ∈ s.mMeshes, m.HasNormals = true) (ht : s.allTriangles) :
    ∃ header positions normals texcoord indices subMeshes materials,
      header = WriteHeader h s ((filename ++ dotMat).length + 1) ∧
      WritePositions h s = .ok positions ∧
      WriteNormals h s = .ok normals ∧
      WriteTexCoord h s = .ok texcoord ∧
      WriteIndices h s = .ok indices ∧
      subMeshes = WriteSubMeshes h s ∧
      materials = WriteSubMeshMaterials s ∧
      ConvertMesh h (some s) filename =
        .ok (header ++ ((filename ++ dotMat) ++ [0]) ++ positions ++ normals ++ texcoord ++
          indices ++ subMeshes ++ materials) ∧
      header.length = 8 ∧
      (u16_view h header).map (swap_u16 h) =
        [s.totalVertices, s.totalFaces, s.mMeshes.length, (filename ++ dotMat).length + 1] ∧
      positions.length = 12 * s.totalVertices ∧
      normals.length = 12 * s.totalVertices ∧
      texcoord.length = 8 * s.totalTexVertices ∧
      indices.length = 6 * s.totalFaces ∧
      subMeshes.length = 4 * s.mMeshes.length ∧
      materials.length = s.mMeshes.length ∧
      (header ++ ((filename ++ dotMat) ++ [0]) ++ positions ++ normals ++ texcoord ++
          indices ++ subMeshes ++ materials).length =
        8 + ((filename ++ dotMat).length + 1) + 24 * s.totalVertices +
          8 * s.totalTexVertices + 6 * s.totalFaces + 5 * s.mMeshes.length := by
  have hr : ∀ m ∈ s.mMeshes, m.normalsReadable :=
    fun m hm => m.normalsReadable_of_HasNormals (hn m hm)
  have e1 := WriteHeader_length h s ((filename ++ dotMat).length + 1)
  have e2 := position_block_length h s
  have e3 := normal_block_length h s hr
  have e4 := texcoord_block_length h s
  have e5 : (u16_raw h (index_values h 0 s.mMeshes)).length = 6 * s.totalFaces := by
    rw [u16_raw_length, index_values_length h 0 s.mMeshes ht, aiScene.totalFaces]; omega
  have e6 := WriteSubMeshes_length h s
  have e7 : (WriteSubMeshMaterials s).length = s.mMeshes.length := by
    simp [WriteSubMeshMaterials]
  refine ⟨_, _, _, _, _, _, _, rfl, WritePositions_ok h s, WriteNormals_ok h s hr,
    WriteTexCoord_ok h s, WriteIndices_loop_ok h 0 s.mMeshes ht, rfl, rfl,
    ConvertMesh_ok h s filename hr ht, e1, ?_, e2, e3, e4, e5, e6, e7, ?_⟩
  · rw [header_fields_view, Nat.mod_eq_of_lt (by omega : s.totalVertices < 65536),
      Nat.mod_eq_of_lt (by omega : s.totalFaces < 65536),
      Nat.mod_eq_of_lt (by omega : s.mMeshes.length < 65536),
      Nat.mod_eq_of_lt (by omega : (filename ++ dotMat).length + 1 < 65536)]
  · generalize filename ++ dotMat = name at e1 ⊢
    simp only [List.length_append, e1, e2, e3, e4, e5, e6, e7, List.length_cons,
      List.length_nil]
    omega

/-- C3 (amended) at the unit-square scene and the file name `box`: the stream
has 161 bytes. -/
theorem C3_stream_layout_witness :
    ∃ bytes, ConvertMesh .little (some quadScene) boxName = .ok bytes ∧
      bytes.length = 8 + 8 + 24 * 4 + 8 * 4 + 6 * 2 + 5 * 1 := by
  obtain ⟨hd, p, n, x, i, sm, mt, _, _, _, _, _, _, _, hc, _, _, _, _, _, _, _, _, hlen⟩ :=
    C3_stream_layout .little quadScene boxName (by decide) (by decide) (by decide)
      (by decide) (by decide) (by decide)
  exact ⟨_, hc, hlen⟩

/-- C4: when the total triangle count is at most 65535, the (start, count)
pairs written by `WriteSubMeshes`, after undoing `swap_u16`, are one per
submesh; the first start is 0, each later start is the previous start plus the
previous count, each count is the number of faces of its submesh, and the last
start plus the last count is the triangle count `WriteHeader` stores. -/
theorem C4_descriptor_contiguity (h : Endian) (s : aiScene) (len_material : Nat)
    (hT : s.totalFaces ≤ 65535) :
    ∃ d : List SubMesh,
      d = subMesh_loop ((u16_view h (WriteSubMeshes h s)).map (swap_u16 h)) ∧
      d.length = s.mMeshes.length ∧
      (0 < d.length → (d.getD 0 ⟨0, 0⟩).start = 0) ∧
      (∀ i, 0 < i → i < d.length →
        (d.getD i ⟨0, 0⟩).start = (d.getD (i - 1) ⟨0, 0⟩).start + (d.getD (i - 1) ⟨0, 0⟩).size) ∧
      (∀ i, i < d.length →
        (d.getD i ⟨0, 0⟩).size = (s.mMeshes.map aiMesh.mNumFaces).getD i 0) ∧
      (0 < d.length →
        (d.getD (d.length - 1) ⟨0, 0⟩).start + (d.getD (d.length - 1) ⟨0, 0⟩).size =
          ((u16_view h (WriteHeader h s len_material)).map (swap_u16 h)).getD 1 0) := by
  refine ⟨_, rfl, ?_⟩
  rw [WriteSubMeshes_decode h s hT]
  have hlen : (descriptor_pairs 0 (s.mMeshes.map aiMesh.mNumFaces)).length =
      s.mMeshes.length := by
    rw [descriptor_pairs_length, List.length_map]
  refine ⟨hlen, ?_, ?_, ?_, ?_⟩
  · intro h0
    exact descriptor_pairs_head 0 _ (by rw [List.length_map]; omega)
  · intro i hi0 hi
    obtain ⟨j, rfl⟩ : ∃ j, i = j + 1 := ⟨i - 1, by omega⟩
    rw [Nat.add_sub_cancel]
    exact descriptor_pairs_step 0 _ j (by rw [List.length_map]; omega)
  · intro i hi
    exact descriptor_pairs_size 0 _ i (by rw [List.length_map]; omega)
  · intro h0
    rw [hlen, header_fields_view]
    simp only [List.getD_cons_succ, List.getD_cons_zero]
    have := descriptor_pairs_last 0 (s.mMeshes.map aiMesh.mNumFaces)
      (by rw [List.length_map]; omega)
    rw [List.length_map] at this
    rw [this, Nat.zero_add, aiScene.totalFaces, Nat.mod_eq_of_lt]
    simpa [aiScene.totalFaces] using Nat.lt_succ_of_le hT

/-- C4 at the scene of two submeshes (2 faces, then 1 face): there are two
descriptors, and the second starts where the first ends. -/
theorem C4_descriptor_contiguity_witness :
    twoScene.totalFaces ≤ 65535 ∧
    ∃ d : List SubMesh,
      d = subMesh_loop ((u16_view .big (WriteSubMeshes .big twoScene)).map (swap_u16 .big)) ∧
      d.length = 2 ∧
      (d.getD 1 ⟨0, 0⟩).start = (d.getD 0 ⟨0, 0⟩).start + (d.getD 0 ⟨0, 0⟩).size := by
  obtain ⟨d, hd, hlen, _, hstep, _, _⟩ :=
    C4_descriptor_contiguity .big twoScene 8 (by decide)
  exact ⟨by decide, d, hd, hlen, hstep 1 (by decide) (by rw [hlen]; decide)⟩

/-- C5: when every face is a triangle, `WriteIndices` succeeds and the index
block, read as 16-bit values, is `expected_indices`: for submesh `i`, face `f`
and corner `c`, in submesh, face and corner order, the value
`swap_u16 (acc_i + localIndex)` with `acc_i` the sum of the vertex counts of
submeshes `0 .. i-1`.  (The vertex-count ceiling of the claim is not needed.) -/
theorem C5_global_index_offset (h : Endian) (s : aiScene) (ht : s.allTriangles) :
    ∃ indices, WriteIndices h s = .ok indices ∧
      indices.length = 6 * s.totalFaces ∧
      u16_view h indices = expected_indices h s := by
  refine ⟨_, WriteIndices_loop_ok h 0 s.mMeshes ht, ?_, ?_⟩
  · rw [u16_raw_length, index_values_length h 0 s.mMeshes ht, aiScene.totalFaces]; omega
  · rw [u16_view_raw_of_lt h _ (index_values_lt h 0 _), index_values_eq_expected]

/-- C5 at the scene of two submeshes: the triangle of the second submesh is
written with the offset 4, the vertex count of the first. -/
theorem C5_global_index_offset_witness :
    twoScene.allTriangles ∧
    ∃ indices, WriteIndices .little twoScene = .ok indices ∧
      indices.length = 6 * twoScene.totalFaces ∧
      u16_view .little indices = expected_indices .little twoScene ∧
      (expected_indices .little twoScene).map (swap_u16 .little) =
        [0, 1, 2, 0, 2, 3, 4, 5, 6] := by
  have ht : twoScene.allTriangles := by decide
  obtain ⟨indices, h1, h2, h3⟩ := C5_global_index_offset .little twoScene ht
  exact ⟨ht, indices, h1, h2, h3, by decide⟩

/-- C6: when every face is a triangle, the total vertex count is at most 65535
and every face index of a submesh is below that submesh's vertex count, every
16-bit value of the index block, after undoing `swap_u16`, is below the vertex
count stored in the header. -/
theorem C6_index_bound (h : Endian) (s : aiScene) (len_material : Nat)
    (ht : s.allTriangles) (hV : s.totalVertices ≤ 65535) (hr : s.indicesInRange) :
    ∃ indices, WriteIndices h s = .ok indices ∧
      ∀ v ∈ (u16_view h indices).map (swap_u16 h),
        v < ((u16_view h (WriteHeader h s len_material)).map (swap_u16 h)).getD 0 0 := by
  refine ⟨_, WriteIndices_loop_ok h 0 s.mMeshes ht, ?_⟩
  intro v hv
  rw [u16_view_raw_of_lt h _ (index_values_lt h 0 _)] at hv
  obtain ⟨x, hx, rfl⟩ := List.mem_map.mp hv
  obtain ⟨g, hg, rfl⟩ := index_values_bound h 0 s.mMeshes hr x hx
  rw [Nat.zero_add] at hg
  have hg' : g < s.totalVertices := hg
  rw [header_fields_view]
  simp only [List.getD_cons_zero]
  rw [swap_u16_swap_u16 h g (by omega), Nat.mod_eq_of_lt (by omega)]
  exact hg'

/-- C6 at the scene of two submeshes (7 vertices in all). -/
theorem C6_index_bound_witness :
    twoScene.allTriangles ∧ twoScene.totalVertices ≤ 65535 ∧ twoScene.indicesInRange ∧
    ∃ indices, WriteIndices .big twoScene = .ok indices ∧
      ∀ v ∈ (u16_view .big indices).map (swap_u16 .big),
        v < ((u16_view .big (WriteHeader .big twoScene 8)).map (swap_u16 .big)).getD 0 0 := by
  have ht : twoScene.allTriangles := by decide
  have hr : twoScene.indicesInRange := by decide
  exact ⟨ht, by decide, hr, C6_index_bound .big twoScene 8 ht (by decide) hr⟩

/-- C7 (refuted as stated): a scene of 65536 vertices is encoded without any
failure, and the vertex count found in the header of the stream is 0, the
count reduced modulo 65536. -/
theorem C7_capacity_counterexample :
    bigScene.totalVertices = 65536 ∧
    ∃ bytes, ConvertMesh .little (some bigScene) boxName = .ok bytes ∧
      (u16_view .little (bytes.take 8)).map (swap_u16 .little) = [0, 0, 1, 8] := by
  have hn : ∀ m ∈ bigScene.mMeshes, m.normalsReadable := by
    intro m hm
    rw [bigScene, List.mem_singleton] at hm
    subst hm
    intro hnone
    cases hnone
  have ht : bigScene.allTriangles := by
    intro m hm f hf
    rw [bigScene, List.mem_singleton] at hm
    subst hm
    cases hf
  have hv : bigScene.totalVertices = 65536 := by
    simp only [aiScene.totalVertices, bigScene, List.map_cons, List.map_nil, List.sum_cons,
      List.sum_nil, aiMesh.mNumVertices, bigMesh, List.length_replicate, Nat.add_zero]
  obtain ⟨bytes, hb, hhead, _⟩ := ConvertMesh_header .little bigScene boxName hn ht
  refine ⟨hv, bytes, hb, ?_⟩
  rw [hhead, header_fields_view, hv]
  rfl

/-- C7 (amended): the encoder has no capacity check.  For every scene in which
the normals of every submesh can be read and every face is a triangle, whatever
its counts, `ConvertMesh` succeeds, and the four header fields of the stream,
after undoing `swap_u16`, are the vertex count, the triangle count, the submesh
count and the name length plus one, each reduced modulo 65536. -/
theorem C7_header_counts_modulo (h : Endian) (s : aiScene) (filename : List Nat)
    (hn : ∀ m ∈ s.mMeshes, m.normalsReadable) (ht : s.allTriangles) :
    ∃ bytes, ConvertMesh h (some s) filename = .ok bytes ∧
      (u16_view h (bytes.take 8)).map (swap_u16 h) =
        [s.totalVertices % 65536, s.totalFaces % 65536, s.mMeshes.length % 65536,
         ((filename ++ dotMat).length + 1) % 65536] := by
  obtain ⟨bytes, hb, hhead, _⟩ := ConvertMesh_header h s filename hn ht
  exact ⟨bytes, hb, by rw [hhead, header_fields_view]⟩

/-- C7 (amended) at the scene of 65536 vertices. -/
theorem C7_header_counts_modulo_witness :
    (∀ m ∈ bigScene.mMeshes, m.normalsReadable) ∧ bigScene.allTriangles ∧
    ∃ bytes, ConvertMesh .big (some bigScene) boxName = .ok bytes ∧
      (u16_view .big (bytes.take 8)).map (swap_u16 .big) =
        [bigScene.totalVertices % 65536, bigScene.totalFaces % 65536,
         bigScene.mMeshes.length % 65536, ((boxName ++ dotMat).length + 1) % 65536] := by
  have hn : ∀ m ∈ bigScene.mMeshes, m.normalsReadable := by
    intro m hm
    rw [bigScene, List.mem_singleton] at hm
    subst hm
    intro hnone
    cases hnone
  have ht : bigScene.allTriangles := by
    intro m hm f hf
    rw [bigScene, List.mem_singleton] at hm
    subst hm
    cases hf
  exact ⟨hn, ht, C7_header_counts_modulo .big bigScene boxName hn ht⟩

/-- C8: `WriteIndices` stops at its assertion, writing no index block, when
some face of some submesh does not have exactly 3 indices, and it succeeds
when every face has exactly 3 indices. -/
theorem C8_non_triangle_rejected (h : Endian) (s : aiScene) :
    ((∃ m ∈ s.mMeshes, ∃ f ∈ m.mFaces, f.mIndices.length ≠ 3) →
      WriteIndices h s = .error .assertFailed) ∧
    (s.allTriangles → ∃ indices, WriteIndices h s = .ok indices) :=
  ⟨fun hbad => WriteIndices_loop_error h 0 s.mMeshes hbad,
   fun ht => ⟨_, WriteIndices_loop_ok h 0 s.mMeshes ht⟩⟩

/-- C8 at a scene with a two-index face (rejected) and at the unit square
(accepted). -/
theorem C8_non_triangle_rejected_witness :
    WriteIndices .little lineScene = .error .assertFailed ∧
    ∃ indices, WriteIndices .little quadScene = .ok indices :=
  ⟨(C8_non_triangle_rejected .little lineScene).1
      (by decide),
   (C8_non_triangle_rejected .little quadScene).2
      (by decide)⟩

/-- C9: `WriteSubMeshMaterials` writes one byte per submesh, in submesh order,
and the byte of a submesh whose material reference `r` satisfies
`1 ≤ r ≤ 256` is `r - 1`. -/
theorem C9_material_byte (s : aiScene) :
    (WriteSubMeshMaterials s).length = s.mMeshes.length ∧
    ∀ (i : Nat) (m : aiMesh), s.mMeshes[i]? = some m → 1 ≤ m.mMaterialIndex → m.mMaterialIndex ≤ 256 →
      (WriteSubMeshMaterials s)[i]? = some (m.mMaterialIndex - 1) := by
  refine ⟨by simp [WriteSubMeshMaterials], ?_⟩
  intro i m hm h1 h256
  have hb : (m.mMaterialIndex + 4294967295) % 4294967296 % 256 = m.mMaterialIndex - 1 := by
    omega
  rw [WriteSubMeshMaterials_getElem s i m hm, materialIdx, hb]

/-- C9 at the one-submesh scenario with material reference 1: the block is the
single byte 0. -/
theorem C9_material_byte_witness :
    (WriteSubMeshMaterials quadScene).length = 1 ∧
    (WriteSubMeshMaterials quadScene)[0]? = some 0 :=
  ⟨(C9_material_byte quadScene).1,
   (C9_material_byte quadScene).2 0 quadMesh rfl (by decide) (by decide)⟩

/-- C10 (refuted as stated): a scene whose only submesh has material reference
0 is encoded without any failure, and the material byte written for that
submesh, the last byte of the stream, is 255. -/
theorem C10_default_material_counterexample :
    defaultMatMesh.mMaterialIndex = 0 ∧
    WriteSubMeshMaterials defaultMatScene = [255] ∧
    ∃ bytes, ConvertMesh .little (some defaultMatScene) boxName = .ok bytes ∧
      bytes.getLast? = some 255 :=
  ⟨rfl, rfl, _, rfl, by decide⟩

/-- C10 (amended): material reference 0 is not rejected.  For every scene in
which the normals of every submesh can be read and every face is a triangle,
`ConvertMesh` succeeds, its stream ends with the block of
`WriteSubMeshMaterials`, and in that block the byte of a submesh whose
material reference is 0 is 255 (0 - 1 reduced modulo 256). -/
theorem C10_default_material_byte (h : Endian) (s : aiScene) (filename : List Nat)
    (hn : ∀ m ∈ s.mMeshes, m.normalsReadable) (ht : s.allTriangles)
    (i : Nat) (m : aiMesh) (hm : s.mMeshes[i]? = some m) (h0 : m.mMaterialIndex = 0) :
    (∃ bytes front, ConvertMesh h (some s) filename = .ok bytes ∧
      bytes = front ++ WriteSubMeshMaterials s) ∧
    (WriteSubMeshMaterials s)[i]? = some 255 := by
  obtain ⟨bytes, hb, _, front, hfront⟩ := ConvertMesh_header h s filename hn ht
  refine ⟨⟨bytes, front, hb, hfront⟩, ?_⟩
  rw [WriteSubMeshMaterials_getElem s i m hm, materialIdx, h0]

/-- C10 (amended) at the scene whose only submesh has material reference 0. -/
theorem C10_default_material_byte_witness :
    (∀ m ∈ defaultMatScene.mMeshes, m.normalsReadable) ∧ defaultMatScene.allTriangles ∧
    defaultMatScene.mMeshes[0]? = some defaultMatMesh ∧ defaultMatMesh.mMaterialIndex = 0 ∧
    (∃ bytes front, ConvertMesh .little (some defaultMatScene) boxName = .ok bytes ∧
      bytes = front ++ WriteSubMeshMaterials defaultMatScene) ∧
    (WriteSubMeshMaterials defaultMatScene)[0]? = some 255 := by
  have hn : ∀ m ∈ defaultMatScene.mMeshes, m.normalsReadable := by decide
  have ht : defaultMatScene.allTriangles := by decide
  exact ⟨hn, ht, rfl, rfl,
    C10_default_material_byte .little defaultMatScene boxName hn ht 0 defaultMatMesh rfl rfl⟩

/-- C11 (refuted as stated): for the unit-square scene the stream written on a
little-endian host and the one written on a big-endian host differ; the first
starts with the bytes 0, 4 (vertex count 4, most significant byte first), the
second with 4, 0. -/
theorem C11_host_dependent_counterexample :
    ConvertMesh .little (some quadScene) boxName ≠ ConvertMesh .big (some quadScene) boxName ∧
    (∃ rest, ConvertMesh .little (some quadScene) boxName = .ok (0 :: 4 :: rest)) ∧
    (∃ rest, ConvertMesh .big (some quadScene) boxName = .ok (4 :: 0 :: rest)) := by
  refine ⟨?_, ⟨_, rfl⟩, ⟨_, rfl⟩⟩
  intro heq
  have h1 := congrArg (fun r => match r with
    | Except.ok bytes => bytes.head?
    | Except.error _ => none) heq
  change some 0 = some 4 at h1
  exact absurd h1 (by decide)

/-- C11 (amended): the stored byte order is the reverse of the host's.  For
every scene in which the normals of every submesh can be read and every face is
a triangle, and every file name, the stream written on a host of byte order `h`
is `stored_stream h`: the header counts, positions, normals, texcoords, global
indices and descriptors laid out with every 16-bit and 32-bit value most
significant byte first when the host is little-endian and least significant
byte first when it is big-endian; and the stream written on a little-endian
host differs from the one written on a big-endian host whenever the two bytes
of the 16-bit vertex count differ. -/
theorem C11_stored_byte_order (h : Endian) (s : aiScene) (filename : List Nat)
    (hn : ∀ m ∈ s.mMeshes, m.normalsReadable) (ht : s.allTriangles) :
    ConvertMesh h (some s) filename = .ok (stored_stream h s filename) ∧
    (∀ x, stored_u16 .little x = [x / 256 % 256, x % 256] ∧
      stored_u16 .big x = [x % 256, x / 256 % 256]) ∧
    (∀ p, stored_f32 .little p =
        [p / 16777216 % 256, p / 65536 % 256, p / 256 % 256, p % 256] ∧
      stored_f32 .big p =
        [p % 256, p / 256 % 256, p / 65536 % 256, p / 16777216 % 256]) ∧
    (s.totalVertices / 256 % 256 ≠ s.totalVertices % 256 →
      ConvertMesh .little (some s) filename ≠ ConvertMesh .big (some s) filename) := by
  refine ⟨ConvertMesh_stored h s filename hn ht, fun _ => ⟨rfl, rfl⟩, fun _ => ⟨rfl, rfl⟩, ?_⟩
  intro hv heq
  rw [ConvertMesh_stored .little s filename hn ht, ConvertMesh_stored .big s filename hn ht]
    at heq
  have h1 := congrArg List.head? (Except.ok.inj heq)
  rw [stored_stream_head, stored_stream_head] at h1
  simp only [stored_u16, List.head?_cons, Option.some.injEq] at h1
  have e0 : s.totalVertices / 256 / 256 = s.totalVertices / 65536 := by
    rw [Nat.div_div_eq_div_mul]
  have e1 : s.totalVertices % 65536 / 256 = s.totalVertices / 256 % 256 := by omega
  have e2 : s.totalVertices % 65536 % 256 = s.totalVertices % 256 := by omega
  rw [e1, e2, Nat.mod_mod] at h1
  exact hv h1

/-- C11 (amended) at the scene of two submeshes (7 vertices, count bytes 0 and
7), on both hosts: each stream is the stored layout of its host, and the two
streams differ. -/
theorem C11_stored_byte_order_witness :
    (∀ m ∈ twoScene.mMeshes, m.normalsReadable) ∧ twoScene.allTriangles ∧
    twoScene.totalVertices / 256 % 256 ≠ twoScene.totalVertices % 256 ∧
    ConvertMesh .little (some twoScene) boxName = .ok (stored_stream .little twoScene boxName) ∧
    ConvertMesh .big (some twoScene) boxName = .ok (stored_stream .big twoScene boxName) ∧
    ConvertMesh .little (some twoScene) boxName ≠ ConvertMesh .big (some twoScene) boxName :=
  ⟨by decide, by decide, by decide,
   (C11_stored_byte_order .little twoScene boxName (by decide) (by decide)).1,
   (C11_stored_byte_order .big twoScene boxName (by decide) (by decide)).1,
   (C11_stored_byte_order .little twoScene boxName (by decide) (by decide)).2.2.2
    (by decide)⟩

/-- C12: on either host, `swap_u16 (swap_u16 x) = x` for every 16-bit unsigned
value `x`. -/
theorem C12_swap_u16_involution (h : Endian) (x : Nat) (hx : x ≤ 65535) :
    swap_u16 h (swap_u16 h x) = x :=
  swap_u16_swap_u16 h x (by omega)

/-- C12 at `x = 0x1234` and at the largest value 65535. -/
theorem C12_swap_u16_involution_witness :
    swap_u16 .little (swap_u16 .little 4660) = 4660 ∧
    swap_u16 .big (swap_u16 .big 65535) = 65535 :=
  ⟨C12_swap_u16_involution .little 4660 (by decide),
   C12_swap_u16_involution .big 65535 (by decide)⟩

/-- C13: on either host, applying `swap_f32` twice to the float with the 32-bit
pattern `b` gives the pattern `b` back, whatever the pattern encodes. -/
theorem C13_swap_f32_involution (h : Endian) (b : Nat) (hb : b < 4294967296) :
    swap_f32 h (swap_f32 h b) = b :=
  swap_f32_swap_f32 h b hb

/-- C13 at a signalling NaN (0x7F800001), at +infinity (0x7F800000) and at the
all-ones pattern. -/
theorem C13_swap_f32_involution_witness :
    swap_f32 .little (swap_f32 .little 2139095041) = 2139095041 ∧
    swap_f32 .big (swap_f32 .big 2139095040) = 2139095040 ∧
    swap_f32 .little (swap_f32 .little 4294967295) = 4294967295 :=
  ⟨C13_swap_f32_involution .little 2139095041 (by decide),
   C13_swap_f32_involution .big 2139095040 (by decide),
   C13_swap_f32_involution .little 4294967295 (by decide)⟩

/-- C14: on either host, `swap_u16 x = (x mod 256) * 256 + x div 256` for every
16-bit unsigned `x`, and for the float whose memory cells are `b0, b1, b2, b3`
`swap_f32` returns the float whose memory cells are `b3, b2, b1, b0`; in
numbers, the pattern with bytes `b0` (least significant) to `b3` becomes the
pattern with bytes `b3` (least significant) to `b0`. -/
theorem C14_byte_reversal (h : Endian) (x : Nat) (hx : x < 65536)
    (b0 b1 b2 b3 : Nat) (h0 : b0 < 256) (h1 : b1 < 256) (h2 : b2 < 256) (h3 : b3 < 256) :
    swap_u16 h x = x % 256 * 256 + x / 256 ∧
    swap_f32 h (f32_val h (b0, b1, b2, b3)) = f32_val h (b3, b2, b1, b0) ∧
    swap_f32 h (b0 + 256 * b1 + 65536 * b2 + 16777216 * b3) =
      b3 + 256 * b2 + 65536 * b1 + 16777216 * b0 := by
  refine ⟨?_, ?_, ?_⟩
  · rw [swap_u16_eq, Nat.mod_eq_of_lt (by omega : x / 256 < 256)]
  · simp only [swap_f32, f32_mem_val h b0 b1 b2 b3 h0 h1 h2 h3]
  · rw [swap_f32_eq]; omega

/-- C14 at `x = 0x1234` (giving 0x3412) and at the bytes 1, 2, 3, 4. -/
theorem C14_byte_reversal_witness :
    swap_u16 .little 4660 = 13330 ∧
    swap_f32 .big (f32_val .big (1, 2, 3, 4)) = f32_val .big (4, 3, 2, 1) ∧
    swap_f32 .big (1 + 256 * 2 + 65536 * 3 + 16777216 * 4) =
      4 + 256 * 3 + 65536 * 2 + 16777216 * 1 :=
  ⟨(C14_byte_reversal .little 4660 (by decide) 1 2 3 4 (by decide) (by decide) (by decide)
      (by decide)).1,
   (C14_byte_reversal .big 4660 (by decide) 1 2 3 4 (by decide) (by decide) (by decide)
      (by decide)).2⟩

/-- C15: when every submesh has normals, `WritePositions` and `WriteNormals`
succeed; the position block, read as floats by the host, is exactly one triple
per vertex, the `k`-th being `(swap_f32 x, swap_f32 y, swap_f32 z)` of the
`k`-th position of the submeshes' vertices concatenated in submesh order, and
the normal block is the same for the normals. -/
theorem C15_attribute_blocks (h : Endian) (s : aiScene)
    (hn : ∀ m ∈ s.mMeshes, m.HasNormals = true) :
    ∃ positions normals,
      WritePositions h s = .ok positions ∧
      WriteNormals h s = .ok normals ∧
      positions.length = 12 * s.totalVertices ∧
      vec3_loop (f32_view h positions) = s.allVertices.map (swapped3 h) ∧
      (vec3_loop (f32_view h positions)).length = s.totalVertices ∧
      normals.length = 12 * s.totalVertices ∧
      vec3_loop (f32_view h normals) = s.allNormals.map (swapped3 h) ∧
      (vec3_loop (f32_view h normals)).length = s.totalVertices := by
  have hr : ∀ m ∈ s.mMeshes, m.normalsReadable :=
    fun m hm => m.normalsReadable_of_HasNormals (hn m hm)
  refine ⟨_, _, WritePositions_ok h s, WriteNormals_ok h s hr, position_block_length h s,
    position_block_view h s, ?_, normal_block_length h s hr, normal_block_view h s, ?_⟩
  · rw [position_block_view, List.length_map, allVertices_length]
  · rw [normal_block_view, List.length_map, allNormals_length s hr]

/-- C15 at the scene of two submeshes: 7 triples in each block, and the fifth
position triple is the first vertex of the second submesh. -/
theorem C15_attribute_blocks_witness :
    (∀ m ∈ twoScene.mMeshes, m.HasNormals = true) ∧
    ∃ positions normals,
      WritePositions .little twoScene = .ok positions ∧
      WriteNormals .little twoScene = .ok normals ∧
      vec3_loop (f32_view .little positions) = twoScene.allVertices.map (swapped3 .little) ∧
      (vec3_loop (f32_view .little positions)).length = 7 ∧
      vec3_loop (f32_view .little normals) = twoScene.allNormals.map (swapped3 .little) ∧
      (vec3_loop (f32_view .little normals)).length = 7 ∧
      (twoScene.allVertices.map (swapped3 .little)).getD 4 ⟨1, 1, 1⟩ = ⟨0, 0, 0⟩ := by
  obtain ⟨p, n, h1, h2, _, h4, h5, _, h7, h8⟩ :=
    C15_attribute_blocks .little twoScene (by decide)
  exact ⟨by decide, p, n, h1, h2, h4, h5, h7, h8, by decide⟩

/-- C16: for every scene `WriteTexCoord` succeeds, and the texcoord block is the
concatenation, over exactly the submeshes that have texture-coordinate set 0
and in submesh order, of the two floats `swap_f32 x`, `swap_f32 y` of each
vertex (8 bytes per vertex, the third component not being written); a submesh
without texture coordinates contributes no byte. -/
theorem C16_texcoord_presence (h : Endian) (s : aiScene) :
    ∃ texcoord,
      WriteTexCoord h s = .ok texcoord ∧
      texcoord = (s.mMeshes.filter aiMesh.HasTextureCoords0).flatMap (fun m =>
        f32_raw h ((m.mTextureCoords0.getD []).flatMap
          (fun t => [swap_f32 h t.x, swap_f32 h t.y]))) ∧
      texcoord.length = 8 * s.totalTexVertices ∧
      vec2_loop (f32_view h texcoord) = s.allTexCoords.map (swapped2 h) ∧
      (∀ m ∈ s.mMeshes, m.HasTextureCoords0 = false → texcoord_bytes h m = []) ∧
      texcoord = s.mMeshes.flatMap (texcoord_bytes h) := by
  refine ⟨_, WriteTexCoord_ok h s, texcoord_block_filter h s.mMeshes,
    texcoord_block_length h s, texcoord_block_view h s, ?_, rfl⟩
  intro m _ hm
  simp [texcoord_bytes, hm]

set_option maxRecDepth 200000 in
/-- C18 (refuted as stated): on the 161-byte stream a little-endian host writes
for the unit square, whose first three fields are stored as 4, 2, 1 most
significant byte first, `mesh_read` on a little-endian host takes the counts
1024, 512, 256, not their `swap_u16` values 4, 2, 1, and it has consumed 6
bytes, not 8, when it starts to read the positions. -/
theorem C18_decoder_header_counterexample :
    8 ≤ (stored_stream .little quadScene boxName).length ∧
    mesh_read_header .little zero_junk (stored_stream .little quadScene boxName) =
      ⟨1024, 512, 256⟩ ∧
    (swap_u16 .little 1024, swap_u16 .little 512, swap_u16 .little 256) = (4, 2, 1) ∧
    mesh_read_body zero_junk (stored_stream .little quadScene boxName) =
      (stored_stream .little quadScene boxName).drop 6 ∧
    mesh_read_body zero_junk (stored_stream .little quadScene boxName) ≠
      (stored_stream .little quadScene boxName).drop 8 := by
  refine ⟨by decide, by decide, by decide, by decide, by decide⟩

/-- C18 (amended): for every input stream of at least 8 bytes, the vertex,
triangle and submesh counts `mesh_read` uses are the first three 16-bit fields
of the stream as the reading host sees them, in its own byte order and without
`swap_u16`: the mesh's `n_vertices` and `n_subMeshes` are the first and third
field and the index array has three entries per unit of the second. -/
theorem C18_decoder_header_native (h : Endian) (junk : Nat → Nat → Nat) (out : Mesh)
    (inFile : List Nat) (hlen : 8 ≤ inFile.length) :
    mesh_read_header h junk inFile =
      ⟨u16_val h (inFile.getD 0 0, inFile.getD 1 0), u16_val h (inFile.getD 2 0, inFile.getD 3 0),
       u16_val h (inFile.getD 4 0, inFile.getD 5 0)⟩ ∧
    (mesh_read h junk inFile out).n_vertices = u16_val h (inFile.getD 0 0, inFile.getD 1 0) ∧
    (mesh_read h junk inFile out).indices.length =
      3 * u16_val h (inFile.getD 2 0, inFile.getD 3 0) ∧
    (mesh_read h junk inFile out).n_subMeshes = u16_val h (inFile.getD 4 0, inFile.getD 5 0) := by
  match inFile, hlen with
  | b0 :: b1 :: b2 :: b3 :: b4 :: b5 :: rest, _ =>
    have hh := (mesh_read_header_cons h junk b0 b1 b2 b3 b4 b5 rest).1
    have hc := mesh_read_counts h junk (b0 :: b1 :: b2 :: b3 :: b4 :: b5 :: rest) out
    refine ⟨hh, ?_, ?_, ?_⟩
    · rw [hc.1, hh]; rfl
    · rw [mesh_read_indices_length, hh]; rfl
    · rw [hc.2.2.2.1, hh]; rfl

set_option maxRecDepth 200000 in
/-- C18 (amended) at the stream a little-endian host writes for the unit
square, read on a big-endian host: the counts are 4, 2 and 1. -/
theorem C18_decoder_header_native_witness :
    8 ≤ (stored_stream .little quadScene boxName).length ∧
    mesh_read_header .big zero_junk (stored_stream .little quadScene boxName) = ⟨4, 2, 1⟩ := by
  have hw := (C18_decoder_header_native .big zero_junk (Mesh.fresh 0)
    (stored_stream .little quadScene boxName) (by decide)).1
  exact ⟨by decide, hw.trans (by decide)⟩

/-- C19: for every input stream, after `mesh_read` the mesh's `n_vertices`,
`n_normals` and `n_texcoord` equal the vertex count taken from the header,
`n_subMeshes` the submesh count taken from the header, and the vertex, normal,
texcoord, index and submesh arrays have `n_vertices`, `n_vertices`,
`n_vertices`, 3 times the header's triangle count and `n_subMeshes` elements. -/
theorem C19_decoder_sizing (h : Endian) (junk : Nat → Nat → Nat) (inFile : List Nat)
    (out : Mesh) :
    (mesh_read h junk inFile out).n_vertices = (mesh_read_header h junk inFile).n_vertices ∧
    (mesh_read h junk inFile out).n_normals = (mesh_read_header h junk inFile).n_vertices ∧
    (mesh_read h junk inFile out).n_texcoord = (mesh_read_header h junk inFile).n_vertices ∧
    (mesh_read h junk inFile out).n_subMeshes = (mesh_read_header h junk inFile).n_subMeshes ∧
    (mesh_read h junk inFile out).vertices.length = (mesh_read h junk inFile out).n_vertices ∧
    (mesh_read h junk inFile out).normals.length = (mesh_read h junk inFile out).n_vertices ∧
    (mesh_read h junk inFile out).texcoord.length = (mesh_read h junk inFile out).n_vertices ∧
    (mesh_read h junk inFile out).indices.length =
      3 * (mesh_read_header h junk inFile).n_faces ∧
    (mesh_read h junk inFile out).subMeshes.length =
      (mesh_read h junk inFile out).n_subMeshes :=
  ⟨rfl, rfl, rfl, rfl, mesh_read_vertices_length h junk inFile out,
   mesh_read_normals_length h junk inFile out, mesh_read_texcoord_length h junk inFile out,
   mesh_read_indices_length h junk inFile out, mesh_read_subMeshes_length h junk inFile out⟩

set_option maxRecDepth 200000 in
/-- C20 (refuted on the code): `mesh_read` never assigns `n_tris`: for every
input the field keeps the value the mesh held before the call; on the stream of
the unit square, whose header gives 2 triangles, a mesh whose counts held 77
still has `n_tris = 77` afterwards, although 6 indices were read. -/
theorem C20_n_tris_not_set :
    (∀ (h : Endian) (junk : Nat → Nat → Nat) (inFile : List Nat) (out : Mesh),
      (mesh_read h junk inFile out).n_tris = out.n_tris) ∧
    (mesh_read_header .big zero_junk (stored_stream .little quadScene boxName)).n_faces = 2 ∧
    (mesh_read .big zero_junk (stored_stream .little quadScene boxName)
      (Mesh.fresh 77)).indices.length = 6 ∧
    (mesh_read .big zero_junk (stored_stream .little quadScene boxName)
      (Mesh.fresh 77)).n_tris = 77 :=
  ⟨fun _ _ _ _ => rfl, by decide, by decide, by decide⟩

/-- C21 (refuted as stated): on a stream that ends inside the position block
(2 vertices announced, the bytes of one present) `mesh_read` completes and
returns a mesh of 2 vertices and 2 normals; the second vertex and both normals
are what the read buffers held before, here the pattern 0xAAAAAAAA. -/
theorem C21_truncation_counterexample :
    truncatedStream.length < 6 + 12 * (mesh_read_header .big stale_junk truncatedStream).n_vertices ∧
    (mesh_read .big stale_junk truncatedStream (Mesh.fresh 0)).n_vertices = 2 ∧
    (mesh_read .big stale_junk truncatedStream (Mesh.fresh 0)).vertices =
      [⟨f32_one, 0, 0⟩, ⟨2863311530, 2863311530, 2863311530⟩] ∧
    (mesh_read .big stale_junk truncatedStream (Mesh.fresh 0)).normals =
      [⟨2863311530, 2863311530, 2863311530⟩, ⟨2863311530, 2863311530, 2863311530⟩] := by
  decide

/-- C21 (amended): `mesh_read` has no truncation check.  For every input stream
it completes and returns a mesh whose arrays have the sizes the header gives;
when the stream ends inside the position block, the position array holds the
floats the host sees in the bytes that were available followed by the prior
content of the read buffer, and the normal, texcoord, index and submesh arrays
hold only the prior content of their buffers. -/
theorem C21_truncation_not_detected (h : Endian) (junk : Nat → Nat → Nat) (out : Mesh)
    (b0 b1 b2 b3 b4 b5 : Nat) (body : List Nat)
    (hshort : body.length < 12 * u16_val h (b0, b1)) :
    (mesh_read h junk (b0 :: b1 :: b2 :: b3 :: b4 :: b5 :: body) out).vertices.length =
      u16_val h (b0, b1) ∧
    (mesh_read h junk (b0 :: b1 :: b2 :: b3 :: b4 :: b5 :: body) out).normals.length =
      u16_val h (b0, b1) ∧
    (mesh_read h junk (b0 :: b1 :: b2 :: b3 :: b4 :: b5 :: body) out).texcoord.length =
      u16_val h (b0, b1) ∧
    (mesh_read h junk (b0 :: b1 :: b2 :: b3 :: b4 :: b5 :: body) out).indices.length =
      3 * u16_val h (b2, b3) ∧
    (mesh_read h junk (b0 :: b1 :: b2 :: b3 :: b4 :: b5 :: body) out).subMeshes.length =
      u16_val h (b4, b5) ∧
    (mesh_read h junk (b0 :: b1 :: b2 :: b3 :: b4 :: b5 :: body) out).vertices =
      vec3_loop (f32_view h (body ++
        (List.range (12 * u16_val h (b0, b1) - body.length)).map
          (fun k => junk 1 (body.length + k)))) ∧
    (mesh_read h junk (b0 :: b1 :: b2 :: b3 :: b4 :: b5 :: body) out).normals =
      vec3_loop (f32_view h ((List.range (12 * u16_val h (b0, b1))).map (junk 2))) ∧
    (mesh_read h junk (b0 :: b1 :: b2 :: b3 :: b4 :: b5 :: body) out).texcoord =
      vec2_loop (f32_view h ((List.range (8 * u16_val h (b0, b1))).map (junk 3))) ∧
    (mesh_read h junk (b0 :: b1 :: b2 :: b3 :: b4 :: b5 :: body) out).indices =
      u16_view h ((List.range (6 * u16_val h (b2, b3))).map (junk 4)) ∧
    (mesh_read h junk (b0 :: b1 :: b2 :: b3 :: b4 :: b5 :: body) out).subMeshes =
      subMesh_loop (u16_view h ((List.range (4 * u16_val h (b4, b5))).map (junk 5))) := by
  have hh := (mesh_read_header_cons h junk b0 b1 b2 b3 b4 b5 body).1
  have hc := mesh_read_counts h junk (b0 :: b1 :: b2 :: b3 :: b4 :: b5 :: body) out
  obtain ⟨t1, t2, t3, t4, t5⟩ :=
    mesh_read_truncated h junk out b0 b1 b2 b3 b4 b5 body hshort
  refine ⟨?_, ?_, ?_, ?_, ?_, t1, t2, t3, t4, t5⟩
  · rw [mesh_read_vertices_length, hc.1, hh]
  · rw [mesh_read_normals_length, hc.1, hh]
  · rw [mesh_read_texcoord_length, hc.1, hh]
  · rw [mesh_read_indices_length, hh]
  · rw [mesh_read_subMeshes_length, hc.2.2.2.1, hh]

/-- C21 (amended) at the stream that announces 2 vertices and holds one: the
second vertex is the stale content of the buffer. -/
theorem C21_truncation_not_detected_witness :
    [63, 128, 0, 0, 0, 0, 0, 0, 0, 0, 0, 0].length < 12 * u16_val .big (0, 2) ∧
    (mesh_read .big stale_junk truncatedStream (Mesh.fresh 0)).vertices.length = 2 ∧
    (mesh_read .big stale_junk truncatedStream (Mesh.fresh 0)).vertices.getD 1 ⟨0, 0, 0⟩ =
      ⟨2863311530, 2863311530, 2863311530⟩ := by
  obtain ⟨h1, _, _, _, _, h6, _⟩ :=
    C21_truncation_not_detected .big stale_junk (Mesh.fresh 0) 0 2 0 0 0 0
      [63, 128, 0, 0, 0, 0, 0, 0, 0, 0, 0, 0] (by decide)
  refine ⟨by decide, h1, ?_⟩
  rw [show truncatedStream = 0 :: 2 :: 0 :: 0 :: 0 :: 0 :: [63, 128, 0, 0, 0, 0, 0, 0, 0, 0, 0, 0]
    from rfl, h6]
  decide

/-- C22: for a material set of `M` materials (material 0 the default) with
`1 ≤ M - 1 ≤ 127`, a sidecar name of length `L` with `L + 1 ≤ 127` and
diffuse-texture file names of length at most 126, on either kind of `char`,
the output of `WriteMaterial` is the byte `L + 1`, the byte `M - 1`, the name
and a NUL, then for the materials 1 to `M - 1` in order the entry of
`layout_entry`: the byte `d + 1`, the file name and a NUL for a material with a
diffuse texture of length `d`, nothing for a material without one. -/
theorem C22_sidecar_layout (sc : Bool) (mats : List aiMaterial) (filename : List Nat)
    (h1 : 1 ≤ mats.length - 1) (h127 : mats.length - 1 ≤ 127)
    (hname : (filename ++ dotMat).length + 1 ≤ 127)
    (htex : ∀ m ∈ mats.drop 1, (m.diffuse.getD []).length ≤ 126) :
    WriteMaterial sc mats filename =
      .ok ([(filename ++ dotMat).length + 1, mats.length - 1] ++
        ((filename ++ dotMat) ++ [0]) ++ (mats.drop 1).flatMap layout_entry) :=
  WriteMaterial_within sc mats filename (by omega) h127 hname (texture_limit _ htex)

/-- C22 at a set of a default material and three others, the second without
texture: count byte 3 and two entries. -/
theorem C22_sidecar_layout_witness :
    WriteMaterial true [plainMaterial, texMaterial, plainMaterial, texMaterial] boxName =
      .ok [8, 3, 98, 111, 120, 46, 109, 97, 116, 0, 2, 116, 0, 2, 116, 0] :=
  C22_sidecar_layout true [plainMaterial, texMaterial, plainMaterial, texMaterial] boxName
    (by decide) (by decide) (by decide) (by decide)

/-- C23: for a default material and at most 127 other materials that all have
a diffuse texture (file names `ts`, each of length plus one at most 127) and a
sidecar name of length plus one at most 127, on either kind of `char` and
whatever the buffers held, `WriteMaterial` succeeds and `ReadMaterial` on its
output reads the name (with its NUL), the count and the file names (each with
its NUL) in the same order, and leaves nothing unread. -/
theorem C23_material_roundtrip (sc : Bool) (junk : Nat → Nat → Nat) (m0 : aiMaterial)
    (ts : List (List Nat)) (filename : List Nat)
    (hn : ts.length ≤ 127) (hname : (filename ++ dotMat).length + 1 ≤ 127)
    (ht : ∀ t ∈ ts, t.length + 1 ≤ 127) :
    ∃ bytes,
      WriteMaterial sc (m0 :: ts.map (fun t => ⟨some t⟩)) filename = .ok bytes ∧
      ReadMaterial sc junk bytes =
        .ok ⟨(filename ++ dotMat) ++ [0], ts.length, ts.map (fun t => t ++ [0]), []⟩ := by
  have htex : ∀ m ∈ (m0 :: ts.map (fun t => (⟨some t⟩ : aiMaterial))).drop 1,
      ∀ t, m.diffuse = some t → t.length + 1 ≤ 127 := by
    intro m hm t hmt
    simp only [List.drop_succ_cons, List.drop_zero, List.mem_map] at hm
    obtain ⟨t', ht', rfl⟩ := hm
    cases hmt
    exact ht t ht'
  have hw := WriteMaterial_within sc (m0 :: ts.map (fun t => ⟨some t⟩)) filename
    (by simp) (by simpa using hn) hname htex
  simp only [List.length_cons, List.length_map, Nat.add_sub_cancel, List.drop_succ_cons,
    List.drop_zero, layout_entry_textures] at hw
  exact ⟨_, hw, ReadMaterial_ok sc junk (filename ++ dotMat) ts hname hn ht⟩

/-- C23 at a set of a default material and two textured materials. -/
theorem C23_material_roundtrip_witness :
    ∃ bytes,
      WriteMaterial true (plainMaterial :: [[116], [117, 118]].map (fun t => ⟨some t⟩))
        boxName = .ok bytes ∧
      ReadMaterial true zero_junk bytes =
        .ok ⟨(boxName ++ dotMat) ++ [0], 2, [[116, 0], [117, 118, 0]], []⟩ :=
  C23_material_roundtrip true zero_junk plainMaterial [[116], [117, 118]] boxName
    (by decide) (by decide) (by decide)

set_option maxRecDepth 200000 in
/-- C24 (refuted as stated): a set of 256 non-default materials, all with a
diffuse texture, is not rejected: on either kind of `char` `WriteMaterial`
succeeds, stores the count byte 0 and writes no entry.  With a signed `char`
a set of 128 non-default materials, all with a diffuse texture, gets the count
byte 128 and no entry. -/
theorem C24_material_count_counterexample :
    (List.replicate 257 texMaterial).length - 1 = 256 ∧
    WriteMaterial true (List.replicate 257 texMaterial) boxName =
      .ok [8, 0, 98, 111, 120, 46, 109, 97, 116, 0] ∧
    WriteMaterial false (List.replicate 257 texMaterial) boxName =
      .ok [8, 0, 98, 111, 120, 46, 109, 97, 116, 0] ∧
    (List.replicate 129 texMaterial).length - 1 = 128 ∧
    WriteMaterial true (List.replicate 129 texMaterial) boxName =
      .ok [8, 128, 98, 111, 120, 46, 109, 97, 116, 0] :=
  ⟨by decide, rfl, rfl, by decide, rfl⟩

/-- C24 (amended): for every material set with a default material, a sidecar
name of length plus one at most 127 and diffuse-texture file names of length at
most 126, on either kind of `char`, `WriteMaterial` never rejects the set: the
count byte it stores is the number of non-default materials reduced modulo
256; and when that number is at most 127 the count byte is the number itself
and an entry is written for every non-default material that has a diffuse
texture. -/
theorem C24_material_count (sc : Bool) (mats : List aiMaterial) (filename : List Nat)
    (hM : 1 ≤ mats.length) (hname : (filename ++ dotMat).length + 1 ≤ 127)
    (htex : ∀ m ∈ mats.drop 1, (m.diffuse.getD []).length ≤ 126) :
    (∃ rest, WriteMaterial sc mats filename =
      .ok (((filename ++ dotMat).length + 1) :: ((mats.length - 1) % 256) :: rest)) ∧
    (mats.length - 1 ≤ 127 →
      WriteMaterial sc mats filename =
        .ok ([(filename ++ dotMat).length + 1, mats.length - 1] ++
          ((filename ++ dotMat) ++ [0]) ++ (mats.drop 1).flatMap layout_entry)) := by
  constructor
  · rw [WriteMaterial_closed sc mats filename hM hname (texture_limit _ htex)]
    exact ⟨_, rfl⟩
  · intro hn
    exact WriteMaterial_within sc mats filename hM hn hname (texture_limit _ htex)

set_option maxRecDepth 200000 in
/-- C24 (amended) at a set of 256 non-default materials (count byte 0) and at
a set of 3 non-default materials. -/
theorem C24_material_count_witness :
    (∃ rest, WriteMaterial true (List.replicate 257 texMaterial) boxName =
      .ok (8 :: 0 :: rest)) ∧
    WriteMaterial false [plainMaterial, texMaterial, plainMaterial, texMaterial] boxName =
      .ok [8, 3, 98, 111, 120, 46, 109, 97, 116, 0, 2, 116, 0, 2, 116, 0] :=
  ⟨(C24_material_count true (List.replicate 257 texMaterial) boxName (by decide) (by decide)
      (by decide)).1,
   (C24_material_count false [plainMaterial, texMaterial, plainMaterial, texMaterial] boxName
      (by decide) (by decide) (by decide)).2 (by decide)⟩

/-- C26 (refuted on the code): on the line `f 1 2 3` ending with a carriage
return the loop of the face branch never exits.  `parseSep` leaves the token
`1 2 3\r`; after three iterations the token is the carriage return alone; there
`getInt3` and `parseSepOpt` do not advance the token while one more vertex is
pushed, so for every number of iterations the loop is still running.  The same
line without the carriage return gives the three vertices in three iterations. -/
theorem C26_face_loop_diverges_on_cr :
    parseSep (crLine.drop 1) = some [49, 32, 50, 32, 51, 13] ∧
    (face_step sampleReader)^[3] ([49, 32, 50, 32, 51, 13], []) =
      ([13], [⟨0, -1, -1⟩, ⟨1, -1, -1⟩, ⟨2, -1, -1⟩]) ∧
    (∀ (r : ObjReader) (face : List Vertex),
      face_step r ([13], face) = ([13], face ++ [⟨0, -1, -1⟩])) ∧
    (∀ (r : ObjReader) (fuel : Nat), face_branch r fuel crLine = none) ∧
    face_branch sampleReader 3 lfLine =
      some [⟨0, -1, -1⟩, ⟨1, -1, -1⟩, ⟨2, -1, -1⟩] := by
  refine ⟨rfl, rfl, fun _ _ => rfl, fun r fuel => ?_, rfl⟩
  have hp : parseSep (crLine.drop 1) = some [49, 32, 50, 32, 51, 13] := rfl
  simp only [face_branch, hp]
  exact face_loop_cr r fuel

end MeshConv
